import Mathlib

/-!
Verification of the AI Bootcamp backend (FastAPI + SQLAlchemy learning
platform).  The Python route handlers and CRUD functions are shallowly
embedded as pure Lean functions over explicit database states; machine
integers are modelled as `Int`/`Nat`, timestamps as `Int`, fallible
handlers return `Except` status codes alongside the committed state.
-/

namespace AIBC

/-! ## Auth subsystem (app/api/v1/auth.py, app/crud/user.py,
app/core/security.py, app/core/config.py) -/

namespace Auth

/-- `settings.MAX_LOGIN_ATTEMPTS` (app/core/config.py). -/
def MAX_LOGIN_ATTEMPTS : Nat := 5

/-- `settings.LOCKOUT_DURATION_MINUTES` (app/core/config.py).  Time is
modelled in minutes, so the lockout horizon is `now + 30`. -/
def LOCKOUT_DURATION_MINUTES : Int := 30

/-- Modelled from the spec: the `User` ORM model (`app/models/user.py` is not
in the source tree; only its callers are).  Fields follow the spec's
"credentials, account status, lockout counters" and the columns read and
written by `app/crud/user.py` and `app/api/v1/auth.py`. -/
structure User where
  id : Nat
  email : String
  password_hash : String
  account_status : String
  failed_login_attempts : Nat
  locked_until : Option Int
  last_login : Option Int
deriving Repr, DecidableEq

/-- Modelled from the spec: the `RefreshToken` ORM model
(`app/models/user.py` is not in the source tree).  Fields follow the spec's
"hashed token, expiry, revocation timestamp" and the columns used by
`save_refresh_token` / `get_refresh_token` / `revoke_refresh_token` in
`app/crud/user.py`. -/
structure RefreshToken where
  user_id : Nat
  token_hash : String
  expires_at : Int
  revoked_at : Option Int
  ip_address : Option String
  user_agent : Option String
deriving Repr, DecidableEq

/-- The auth-relevant database state: the `users` and `refresh_tokens`
tables. -/
structure AuthDb where
  users : List User
  refresh_tokens : List RefreshToken
deriving Repr, DecidableEq

/-- `get_user_by_email` (app/crud/user.py): first row matching the email. -/
def get_user_by_email (db : AuthDb) (email : String) : Option User :=
  db.users.find? (fun u => u.email == email)

/-- `get_user_by_id` (app/crud/user.py). -/
def get_user_by_id (db : AuthDb) (uid : Nat) : Option User :=
  db.users.find? (fun u => u.id == uid)

/-- A SQL `UPDATE users SET ... WHERE id = uid`. -/
def updateUser (db : AuthDb) (uid : Nat) (f : User → User) : AuthDb :=
  { db with users := db.users.map (fun u => if u.id = uid then f u else u) }

/-- `increment_failed_login` (app/crud/user.py lines 46-62): refetch the
user, bump the counter, and set `locked_until` 30 minutes into the future
once the new counter reaches `MAX_LOGIN_ATTEMPTS`. -/
def increment_failed_login (db : AuthDb) (now : Int) (uid : Nat) : AuthDb :=
  match get_user_by_id db uid with
  | none => db
  | some u =>
    let failed := u.failed_login_attempts + 1
    let lock : Option Int :=
      if MAX_LOGIN_ATTEMPTS ≤ failed then some (now + LOCKOUT_DURATION_MINUTES)
      else u.locked_until
    updateUser db uid (fun v =>
      { v with failed_login_attempts := failed, locked_until := lock })

/-- `update_last_login` (app/crud/user.py): reset the lockout state on a
successful login. -/
def update_last_login (db : AuthDb) (now : Int) (uid : Nat) : AuthDb :=
  updateUser db uid (fun v =>
    { v with last_login := some now, failed_login_attempts := 0,
             locked_until := none })

/-- `save_refresh_token` (app/crud/user.py lines 64-82): the row stores
`hash_token token` (`h` models SHA-256, app/core/security.py line 132),
never the raw token string. -/
def save_refresh_token (h : String → String) (db : AuthDb) (uid : Nat)
    (token : String) (expires_at : Int) (ip ua : Option String) :
    AuthDb × RefreshToken :=
  let row : RefreshToken :=
    { user_id := uid, token_hash := h token, expires_at := expires_at,
      revoked_at := none, ip_address := ip, user_agent := ua }
  ({ db with refresh_tokens := db.refresh_tokens ++ [row] }, row)

/-- `get_refresh_token` (app/crud/user.py lines 84-95): look up by token
hash, requiring the row to be unrevoked and unexpired. -/
def get_refresh_token (h : String → String) (db : AuthDb) (now : Int)
    (token : String) : Option RefreshToken :=
  db.refresh_tokens.find? (fun r =>
    r.token_hash == h token && r.revoked_at == none && decide (now < r.expires_at))

/-- `revoke_refresh_token` (app/crud/user.py lines 97-104): stamp
`revoked_at` on every row whose hash matches. -/
def revoke_refresh_token (h : String → String) (db : AuthDb) (now : Int)
    (token : String) : AuthDb :=
  { db with refresh_tokens := db.refresh_tokens.map (fun r =>
      if r.token_hash = h token then { r with revoked_at := some now } else r) }

/-- The `user.locked_until and user.locked_until > now` test of the login
handler (app/api/v1/auth.py line 65). -/
def isLocked (u : User) (now : Int) : Bool :=
  match u.locked_until with
  | some t => decide (now < t)
  | none => false

/-- The response body of a successful login/refresh. -/
structure Token where
  access_token : String
  refresh_token : String
deriving Repr, DecidableEq

/-- The `login` handler (app/api/v1/auth.py lines 50-113).  `verify` models
bcrypt `verify_password`, `h` models SHA-256 `hash_token`, `access_tok` and
`refresh_tok` are the freshly created JWTs, `rexp` the refresh expiry
interval.  Errors carry the HTTP status code. -/
def login (verify : String → String → Bool) (h : String → String)
    (now : Int) (access_tok refresh_tok : String) (rexp : Int)
    (ip ua : Option String) (db : AuthDb) (email password : String) :
    AuthDb × Except Nat Token :=
  match get_user_by_email db email with
  | none => (db, .error 401)
  | some user =>
    if isLocked user now then (db, .error 423)
    else if ¬ verify password user.password_hash then
      (increment_failed_login db now user.id, .error 401)
    else if user.account_status ≠ "active" then (db, .error 403)
    else
      let db1 := update_last_login db now user.id
      let db2 := (save_refresh_token h db1 user.id refresh_tok (now + rexp) ip ua).1
      (db2, .ok { access_token := access_tok, refresh_token := refresh_tok })

/-- The `refresh_token` handler (app/api/v1/auth.py lines 115-174).
`jwtOk` models `verify_token(·, "refresh")` (signature/expiry/type check);
any `HTTPException` raised inside the `try` is re-raised as 401 by the
blanket `except`, so every failure surfaces as 401. -/
def refresh (jwtOk : String → Bool) (h : String → String) (now : Int)
    (new_access new_refresh : String) (rexp : Int) (ip ua : Option String)
    (db : AuthDb) (token : String) : AuthDb × Except Nat Token :=
  if ¬ jwtOk token then (db, .error 401)
  else
    match get_refresh_token h db now token with
    | none => (db, .error 401)
    | some stored =>
      match get_user_by_id db stored.user_id with
      | none => (db, .error 401)
      | some user =>
        if user.account_status ≠ "active" then (db, .error 401)
        else
          let db1 := revoke_refresh_token h db now token
          let db2 := (save_refresh_token h db1 user.id new_refresh (now + rexp) ip ua).1
          (db2, .ok { access_token := new_access, refresh_token := new_refresh })

/-- Concrete login-state for the C1 witness: one user, four failed
attempts so far. -/
def c1User : User :=
  { id := 1, email := "s@rit.edu", password_hash := "bh",
    account_status := "active", failed_login_attempts := 4,
    locked_until := none, last_login := none }

/-- Concrete one-user database for the C1 witness. -/
def c1Db : AuthDb := { users := [c1User], refresh_tokens := [] }

/-- Concrete refresh-token row for the C2 witness (hash of `"tok"` under
the prefixing hash model). -/
def c2Stored : RefreshToken :=
  { user_id := 1, token_hash := "#tok", expires_at := 100,
    revoked_at := none, ip_address := none, user_agent := none }

/-- Concrete database for the C2 witness. -/
def c2Db : AuthDb := { users := [c1User], refresh_tokens := [c2Stored] }

end Auth

/-! ## Progress subsystem (app/crud/progress.py, app/api/v1/progress.py,
app/models/progress.py, app/schemas/progress.py, app/crud/resource.py) -/

namespace Progress

/-- `Pathway` (app/models/progress.py): the fields the progress logic
reads. -/
structure Pathway where
  id : String
  total_modules : Int
deriving Repr, DecidableEq

/-- `Module` (app/models/progress.py). -/
structure Module where
  id : String
  pathway_id : String
deriving Repr, DecidableEq

/-- `UserProgress` (app/models/progress.py).  `progress_percentage` is a
nullable `Integer` column (`none` models SQL NULL, which an explicit-null
update can store); the table carries the check constraint
`progress_percentage >= 0 AND progress_percentage <= 100` (lines 46-48),
which commits enforce on non-NULL values (SQL CHECK passes NULL). -/
structure UserProgress where
  user_id : Nat
  pathway_id : String
  current_module_id : Option String
  progress_percentage : Option Int
  completed_modules : Int
  total_time_spent_minutes : Int
  completed_at : Option Int
deriving Repr, DecidableEq

/-- `ModuleCompletion` (app/models/progress.py): `approval_status` defaults
to `'pending'` on insert (line 61). -/
structure ModuleCompletion where
  user_id : Nat
  pathway_id : String
  module_id : String
  time_spent_minutes : Int
  approval_status : String
deriving Repr, DecidableEq

/-- `Achievement` (app/models/progress.py).  `requirement_value` is a
nullable `Integer` column; threshold achievements carry a value, so it is
modelled as `Int` (the Python comparison would raise on `None`). -/
structure Achievement where
  id : String
  requirement_type : String
  requirement_value : Int
deriving Repr, DecidableEq

/-- `UserAchievement` (app/models/progress.py). -/
structure UserAchievement where
  user_id : Nat
  achievement_id : String
deriving Repr, DecidableEq

/-- `LearningStreak` (app/models/progress.py); dates are modelled as `Int`
day numbers, so Python's `(today - last_activity_date).days` is plain
subtraction. -/
structure LearningStreak where
  user_id : Nat
  current_streak : Int
  longest_streak : Int
  last_activity_date : Option Int
deriving Repr, DecidableEq

/-- `Resource` (app/models/resource.py): the fields used by the
module-completion validation and the upload endpoint.
`accepted_file_types` is a nullable array column. -/
structure Resource where
  id : String
  module_id : String
  pathway_id : String
  title : String
  requires_upload : Bool
  accepted_file_types : Option (List String)
  max_file_size_mb : Int
deriving Repr, DecidableEq

/-- `ResourceCompletion` (app/models/resource.py): the fields read and
written by the completion/upload flows. -/
structure ResourceCompletion where
  user_id : Nat
  resource_id : String
  module_id : String
  pathway_id : String
  status : String
  progress_percentage : Int
  submission_count : Int
  submission_required : Bool
deriving Repr, DecidableEq

/-- `ResourceSubmission` (app/models/resource.py): the uploaded-file
record.  `id` models the UUID primary key. -/
structure ResourceSubmission where
  id : Nat
  user_id : Nat
  resource_id : String
  file_name : String
  file_size_bytes : Int
  file_type : String
  gcs_bucket : String
  gcs_path : String
  gcs_url : String
  submission_status : String
  grade : Option String
  review_comments : Option String
  reviewed_by : Option Nat
  deleted_at : Option Int
deriving Repr, DecidableEq

/-- The progress-side database state. -/
structure Db where
  pathways : List Pathway
  modules : List Module
  resources : List Resource
  resource_completions : List ResourceCompletion
  user_progress : List UserProgress
  module_completions : List ModuleCompletion
  achievements : List Achievement
  user_achievements : List UserAchievement
  streaks : List LearningStreak
  submissions : List ResourceSubmission
  gcs_objects : List String
deriving Repr, DecidableEq

/-- `get_pathway_by_id` (app/crud/progress.py). -/
def get_pathway_by_id (db : Db) (pid : String) : Option Pathway :=
  db.pathways.find? (fun p => p.id == pid)

/-- `get_module_by_id` (app/crud/progress.py). -/
def get_module_by_id (db : Db) (mid : String) : Option Module :=
  db.modules.find? (fun m => m.id == mid)

/-- `get_user_progress` (app/crud/progress.py). -/
def get_user_progress (db : Db) (uid : Nat) (pid : String) : Option UserProgress :=
  db.user_progress.find? (fun p => p.user_id == uid && p.pathway_id == pid)

/-- `get_learning_streak` (app/crud/progress.py). -/
def get_learning_streak (db : Db) (uid : Nat) : Option LearningStreak :=
  db.streaks.find? (fun s => s.user_id == uid)

/-- The existing-completion lookup inside `mark_module_complete`
(app/crud/progress.py lines 147-156). -/
def get_module_completion (db : Db) (uid : Nat) (mid : String) :
    Option ModuleCompletion :=
  db.module_completions.find? (fun c => c.user_id == uid && c.module_id == mid)

/-- `update_learning_streak` (app/crud/progress.py lines 293-331): create a
fresh streak row, or update by the day difference against the last
activity date (0 = no change, 1 = increment, otherwise reset to 1). -/
def update_learning_streak (db : Db) (today : Int) (uid : Nat) :
    Db × LearningStreak :=
  match get_learning_streak db uid with
  | none =>
    let s : LearningStreak :=
      { user_id := uid, current_streak := 1, longest_streak := 1,
        last_activity_date := some today }
    ({ db with streaks := db.streaks ++ [s] }, s)
  | some s =>
    let s1 :=
      match s.last_activity_date with
      | some d =>
        let days_diff := today - d
        if days_diff = 0 then s
        else if days_diff = 1 then
          { s with current_streak := s.current_streak + 1,
                   longest_streak := max s.longest_streak (s.current_streak + 1) }
        else { s with current_streak := 1 }
      | none =>
        { s with current_streak := 1, longest_streak := max s.longest_streak 1 }
    let s2 := { s1 with last_activity_date := some today }
    ({ db with streaks := db.streaks.map (fun r => if r.user_id = uid then s2 else r) }, s2)

/-- `award_achievement` (app/crud/progress.py lines 226-252): `none` and no
change when the pair is already earned, otherwise insert the row. -/
def award_achievement (db : Db) (uid : Nat) (aid : String) :
    Db × Option UserAchievement :=
  if db.user_achievements.any (fun r => r.user_id == uid && r.achievement_id == aid)
  then (db, none)
  else
    let row : UserAchievement := { user_id := uid, achievement_id := aid }
    ({ db with user_achievements := db.user_achievements ++ [row] }, some row)

/-- The `should_award` test of `check_and_award_achievements`
(app/crud/progress.py lines 268-280), over the statistics computed before
the loop. -/
def should_award (modules_completed pathways_completed pathways_started total_time : Int)
    (streak : Option LearningStreak) (a : Achievement) : Bool :=
  if a.requirement_type = "modules_completed" then
    decide (a.requirement_value ≤ modules_completed)
  else if a.requirement_type = "pathways_completed" then
    decide (a.requirement_value ≤ pathways_completed)
  else if a.requirement_type = "streak_days" then
    match streak with
    | some s => decide (a.requirement_value ≤ s.current_streak)
    | none => false
  else if a.requirement_type = "time_spent" then
    decide (a.requirement_value ≤ total_time)
  else if a.requirement_type = "custom" ∧ a.id = "pathway-starter" then
    decide (1 ≤ pathways_started)
  else false

/-- `check_and_award_achievements` (app/crud/progress.py lines 254-283):
compute the user's statistics once, then award every achievement whose
threshold test passes (deduplicated by `award_achievement`). -/
def check_and_award_achievements (db : Db) (uid : Nat) : Db :=
  let completions := db.module_completions.filter (fun c => c.user_id == uid)
  let progress_list := db.user_progress.filter (fun p => p.user_id == uid)
  let streak := get_learning_streak db uid
  let modules_completed : Int := completions.length
  let pathways_completed : Int :=
    (progress_list.filter (fun p => p.progress_percentage == some 100)).length
  let pathways_started : Int := progress_list.length
  let total_time : Int := (progress_list.map (fun p => p.total_time_spent_minutes)).sum
  db.achievements.foldl (fun acc a =>
    if should_award modules_completed pathways_completed pathways_started
        total_time streak a
    then (award_achievement acc uid a.id).1 else acc) db

/-- Python's `int()` applied to a float: truncation toward zero of the
float's exact rational value. -/
def pyInt (q : ℚ) : Int := if 0 ≤ q then ⌊q⌋ else ⌈q⌉

/-- The rational `2 ^ k` for an integer `k`, computed through natural
powers. -/
def twoPow (k : Int) : ℚ :=
  if 0 ≤ k then ((2 ^ k.toNat : ℕ) : ℚ) else 1 / ((2 ^ (-k).toNat : ℕ) : ℚ)

/-- Fuelled base-2 logarithm on naturals (`log2Aux fuel n` halves `n`
until it drops below 2; any `fuel ≥ n` is enough). -/
def log2Aux : Nat → Nat → Nat
  | 0, _ => 0
  | fuel+1, n => if 2 ≤ n then log2Aux fuel (n / 2) + 1 else 0

/-- Base-2 logarithm of a natural number (0 at 0 and 1). -/
def natLog2 (n : Nat) : Nat := log2Aux n n

/-- Floor of the base-2 logarithm of a positive rational.  `natLog2` of
the numerator and denominator pins it down to within one; one comparison
settles it. -/
def floorLog2 (q : ℚ) : Int :=
  let k0 : Int := (natLog2 q.num.natAbs : Int) - (natLog2 q.den : Int)
  if twoPow k0 ≤ q then k0 else k0 - 1

/-- Round a rational to the nearest integer, ties to even (the IEEE-754
default rounding of the significand). -/
def roundHalfEven (x : ℚ) : Int :=
  let n := ⌊x⌋
  if x - n < 1/2 then n
  else if (1 : ℚ)/2 < x - n then n + 1
  else if n % 2 = 0 then n else n + 1

/-- Round a rational to the nearest IEEE-754 binary64 value (round to
nearest, ties to even): normalize the magnitude to a 53-bit significand
in `[2^52, 2^53)` and round it to an integer.  Overflow and subnormals
cannot arise for the values this model computes (quotients and small
products of small integers). -/
def f64Round (q : ℚ) : ℚ :=
  if q = 0 then 0
  else if q < 0 then
    -((roundHalfEven ((-q) * twoPow ((52 : Int) - floorLog2 (-q))) : ℚ)
        * twoPow (floorLog2 (-q) - 52))
  else
    (roundHalfEven (q * twoPow ((52 : Int) - floorLog2 q)) : ℚ)
        * twoPow (floorLog2 q - 52)

/-- CPython float division: both operands here are small integers, hence
exactly representable, so the result is the correctly rounded quotient. -/
def f64Div (a b : ℚ) : ℚ := f64Round (a / b)

/-- CPython float multiplication of exactly representable operands. -/
def f64Mul (a b : ℚ) : ℚ := f64Round (a * b)

/-- The percentage computation of `mark_module_complete`
(app/crud/progress.py line 180):
`int((completed_modules / pathway.total_modules) * 100)`, with the
division and the multiplication performed in IEEE-754 binary64 arithmetic
as CPython does, and `int()` truncating the final double toward zero. -/
def progressPct (completed total : Int) : Int :=
  pyInt (f64Mul (f64Div (completed : ℚ) (total : ℚ)) 100)

/-- `create_user_progress` (app/crud/progress.py lines 75-101): return an
existing row, otherwise insert a zeroed row, commit, and update the
learning streak. -/
def create_user_progress (db : Db) (today : Int) (uid : Nat) (pid : String) :
    Db × UserProgress :=
  match get_user_progress db uid pid with
  | some existing => (db, existing)
  | none =>
    let row : UserProgress :=
      { user_id := uid, pathway_id := pid, current_module_id := none,
        progress_percentage := some 0, completed_modules := 0,
        total_time_spent_minutes := 0, completed_at := none }
    let db1 := { db with user_progress := db.user_progress ++ [row] }
    let db2 := (update_learning_streak db1 today uid).1
    (db2, row)

/-- A SQL `UPDATE user_progress ... WHERE user_id = uid AND pathway_id =
pid` (rows are keyed by the (user, pathway) pair). -/
def setUserProgress (db : Db) (uid : Nat) (pid : String) (row : UserProgress) : Db :=
  { db with user_progress := db.user_progress.map (fun p =>
      if p.user_id = uid ∧ p.pathway_id = pid then row else p) }

/-- `UserProgressUpdate` (app/schemas/progress.py lines 53-57).  The
nullable-column fields are tri-state, because pydantic's
`model_dump(exclude_unset=True)` distinguishes an omitted field (outer
`none`) from an explicitly supplied JSON `null` (`some none`), and the
`setattr` loop writes the explicit null as SQL NULL.
`completed_modules` / `total_time_spent_minutes` are set-or-unset, in
step with their non-nullable column model. -/
structure UserProgressUpdate where
  current_module_id : Option (Option String)
  progress_percentage : Option (Option Int)
  completed_modules : Option Int
  total_time_spent_minutes : Option Int
deriving Repr, DecidableEq

/-- The pydantic validation on `UserProgressUpdate.progress_percentage`:
`Field(None, ge=0, le=100)`.  The `ge`/`le` bounds apply only to an
actual integer; an explicit `null` passes (`None` skips the bounds), as
does an omitted field.  The other fields carry no bounds. -/
def UserProgressUpdate.valid (u : UserProgressUpdate) : Bool :=
  match u.progress_percentage with
  | some (some v) => decide (0 ≤ v ∧ v ≤ 100)
  | some none => true
  | none => true

/-- Applying the `model_dump(exclude_unset=True)` field loop of
`update_user_progress` (app/crud/progress.py lines 124-126): an unset
field keeps the old value, a set field — including an explicit null — is
assigned verbatim. -/
def applyUpdate (p : UserProgress) (u : UserProgressUpdate) : UserProgress :=
  { p with
    current_module_id :=
      match u.current_module_id with
      | some v => v
      | none => p.current_module_id,
    progress_percentage :=
      match u.progress_percentage with
      | some v => v
      | none => p.progress_percentage,
    completed_modules := u.completed_modules.getD p.completed_modules,
    total_time_spent_minutes :=
      u.total_time_spent_minutes.getD p.total_time_spent_minutes }

/-- `update_user_progress` (app/crud/progress.py lines 103-138): apply the
set fields, stamp `completed_at` when the percentage hits 100 for the
first time (also triggering the achievement check), and commit. -/
def update_user_progress (db : Db) (today : Int) (uid : Nat) (pid : String)
    (upd : UserProgressUpdate) : Db × Option UserProgress :=
  match get_user_progress db uid pid with
  | none => (db, none)
  | some p =>
    let p1 := applyUpdate p upd
    let hitFull := p1.progress_percentage = some 100 ∧ p1.completed_at = none
    let p2 := if hitFull then { p1 with completed_at := some today } else p1
    let db1 := setUserProgress db uid pid p2
    let db2 := if hitFull then check_and_award_achievements db1 uid else db1
    (db2, some p2)

/-- `ModuleCompletionCreate` (app/schemas/progress.py lines 71-74). -/
structure ModuleCompletionCreate where
  module_id : String
  pathway_id : String
  time_spent_minutes : Int
deriving Repr, DecidableEq

/-- The tail of `mark_module_complete` (app/crud/progress.py lines
176-196) once the (possibly fresh) progress row is at hand: recompute the
percentage, commit (the commit flushes the pending completion insert and
enforces the `UserProgress` check constraint; a zero `total_modules`
raises `ZeroDivisionError` before the commit), then update the streak and
check achievements.  `base` is the last committed state, `pendingBase` the
state the final commit produces apart from the progress-row update. -/
def markCommit (base pendingBase : Db) (today : Int) (uid : Nat)
    (c : ModuleCompletionCreate) (comp : ModuleCompletion)
    (up : UserProgress) : Db × Except Nat ModuleCompletion :=
  match get_pathway_by_id base c.pathway_id with
  | none =>
    -- `if pathway:` fails: the progress row is left alone, the commit
    -- only flushes the pending completion insert
    let db1 := pendingBase
    let db2 := (update_learning_streak db1 today uid).1
    let db3 := check_and_award_achievements db2 uid
    (db3, .ok comp)
  | some pathway =>
    if pathway.total_modules = 0 then (base, .error 500)
    else
      let completed := up.completed_modules + 1
      let pct := progressPct completed pathway.total_modules
      if 0 ≤ pct ∧ pct ≤ 100 then
        let up1 : UserProgress :=
          { up with
            completed_modules := completed,
            progress_percentage := some pct,
            total_time_spent_minutes :=
              up.total_time_spent_minutes + c.time_spent_minutes,
            completed_at := if pct = 100 then some today else up.completed_at }
        let db1 := setUserProgress pendingBase uid c.pathway_id up1
        let db2 := (update_learning_streak db1 today uid).1
        let db3 := check_and_award_achievements db2 uid
        (db3, .ok comp)
      else (base, .error 500)

/-- `mark_module_complete` (app/crud/progress.py lines 141-196): return an
existing (user, module) completion unchanged; otherwise stage the new
completion row (approval_status `'pending'` by column default), fetch or
create the progress row — creating it commits the staged completion too —
and finish with `markCommit`. -/
def mark_module_complete (db : Db) (today : Int) (uid : Nat)
    (c : ModuleCompletionCreate) : Db × Except Nat ModuleCompletion :=
  match get_module_completion db uid c.module_id with
  | some existing => (db, .ok existing)
  | none =>
    let comp : ModuleCompletion :=
      { user_id := uid, pathway_id := c.pathway_id, module_id := c.module_id,
        time_spent_minutes := c.time_spent_minutes, approval_status := "pending" }
    match get_user_progress db uid c.pathway_id with
    | some up =>
      -- the completion insert stays pending until the final commit
      let pendingBase :=
        { db with module_completions := db.module_completions ++ [comp] }
      markCommit db pendingBase today uid c comp up
    | none =>
      -- create_user_progress commits: the staged completion, the fresh
      -- progress row and the streak update are all persisted here
      let row : UserProgress :=
        { user_id := uid, pathway_id := c.pathway_id, current_module_id := none,
          progress_percentage := some 0, completed_modules := 0,
          total_time_spent_minutes := 0, completed_at := none }
      let db1 :=
        { db with module_completions := db.module_completions ++ [comp],
                  user_progress := db.user_progress ++ [row] }
      let db2 := (update_learning_streak db1 today uid).1
      markCommit db2 db2 today uid c comp row

/-- `get_resources_by_module` (app/crud/resource.py lines 21-28). -/
def get_resources_by_module (db : Db) (mid : String) : List Resource :=
  db.resources.filter (fun r => r.module_id == mid)

/-- `get_user_completions_for_module` (app/crud/resource.py lines
130-144). -/
def get_user_completions_for_module (db : Db) (uid : Nat) (mid : String) :
    List ResourceCompletion :=
  db.resource_completions.filter (fun c => c.user_id == uid && c.module_id == mid)

/-- The `completion.status not in ['completed', 'submitted', 'reviewed']`
test (app/api/v1/progress.py line 388), i.e. membership in the accepted
statuses. -/
def goodStatus (s : String) : Bool :=
  s == "completed" || s == "submitted" || s == "reviewed"

/-- The `mark_module_complete` route handler (app/api/v1/progress.py lines
350-419): 404 for a missing module or pathway; when the module has
resources, 400 if some resource lacks an accepted completion or some
required upload is missing; otherwise delegate to the CRUD layer. -/
def mark_module_complete_endpoint (db : Db) (today : Int) (uid : Nat)
    (c : ModuleCompletionCreate) : Db × Except Nat ModuleCompletion :=
  match get_module_by_id db c.module_id with
  | none => (db, .error 404)
  | some _ =>
    match get_pathway_by_id db c.pathway_id with
    | none => (db, .error 404)
    | some _ =>
      let resources := get_resources_by_module db c.module_id
      if resources.isEmpty then mark_module_complete db today uid c
      else
        let completions := get_user_completions_for_module db uid c.module_id
        let lookup := fun (r : Resource) =>
          completions.find? (fun cm => cm.resource_id == r.id)
        let incomplete := resources.filter (fun r =>
          match lookup r with
          | none => true
          | some cm => ¬ goodStatus cm.status)
        let missing_uploads := resources.filter (fun r =>
          match lookup r with
          | none => false
          | some cm => goodStatus cm.status && r.requires_upload
              && cm.submission_count == 0)
        if ¬ incomplete.isEmpty then (db, .error 400)
        else if ¬ missing_uploads.isEmpty then (db, .error 400)
        else mark_module_complete db today uid c

/-- The progress operations C3 quantifies over, each carrying the day it
runs on. -/
inductive ProgressOp where
  | create (today : Int) (uid : Nat) (pid : String)
  | update (today : Int) (uid : Nat) (pid : String) (upd : UserProgressUpdate)
  | mark (today : Int) (uid : Nat) (c : ModuleCompletionCreate)
deriving Repr

/-- One request against the progress API.  Update requests run behind the
pydantic validation of `UserProgressUpdate` (invalid bodies are rejected
with 422 before the handler runs). -/
def applyOp (db : Db) (op : ProgressOp) : Db :=
  match op with
  | .create today uid pid => (create_user_progress db today uid pid).1
  | .update today uid pid upd =>
    if upd.valid then (update_user_progress db today uid pid upd).1 else db
  | .mark today uid c => (mark_module_complete_endpoint db today uid c).1

/-- The invariant the progress operations actually maintain: every
non-NULL `progress_percentage` satisfies the check constraint (SQL CHECK
passes NULL, and an explicit-null update stores NULL). -/
def PctInv (db : Db) : Prop :=
  ∀ p ∈ db.user_progress, ∀ v, p.progress_percentage = some v →
    0 ≤ v ∧ v ≤ 100

/-- The update body `{"progress_percentage": null}`: every field unset
except an explicit null percentage. -/
def nullPctUpdate : UserProgressUpdate :=
  { current_module_id := none, progress_percentage := some none,
    completed_modules := none, total_time_spent_minutes := none }

/-- The empty database, used by the concrete witnesses. -/
def emptyDb : Db :=
  { pathways := [], modules := [], resources := [], resource_completions := [],
    user_progress := [], module_completions := [], achievements := [],
    user_achievements := [], streaks := [], submissions := [], gcs_objects := [] }

/-- Concrete streak row for the C6 witness: three-day streak, last active
on day 9. -/
def c6Streak : LearningStreak :=
  { user_id := 1, current_streak := 3, longest_streak := 3,
    last_activity_date := some 9 }

/-- Concrete database for the C6 witness. -/
def c6Db : Db := { emptyDb with streaks := [c6Streak] }

/-- Concrete pathway for the C4 witness: two modules. -/
def c4Pathway : Pathway := { id := "p", total_modules := 2 }

/-- Concrete progress row for the C4 witness: nothing completed yet. -/
def c4Up : UserProgress :=
  { user_id := 1, pathway_id := "p", current_module_id := none,
    progress_percentage := some 0, completed_modules := 0,
    total_time_spent_minutes := 0, completed_at := none }

/-- Concrete database for the C4 witness. -/
def c4Db : Db :=
  { emptyDb with pathways := [c4Pathway], user_progress := [c4Up] }

/-- Concrete completion request for the C4 witness. -/
def c4Create : ModuleCompletionCreate :=
  { module_id := "m1", pathway_id := "p", time_spent_minutes := 30 }

/-- A 100-module pathway, for the C4 float counterexample. -/
def c4BigPathway : Pathway := { id := "q", total_modules := 100 }

/-- Progress row with 28 completed modules of 100, for the C4 float
counterexample: the 29th completion hits the `(29/100)*100` rounding
case. -/
def c4BigUp : UserProgress :=
  { user_id := 1, pathway_id := "q", current_module_id := none,
    progress_percentage := some 28, completed_modules := 28,
    total_time_spent_minutes := 0, completed_at := none }

/-- Concrete database for the C4 float counterexample. -/
def c4BigDb : Db :=
  { emptyDb with pathways := [c4BigPathway], user_progress := [c4BigUp] }

/-- The 29th-module completion request on the 100-module pathway. -/
def c4BigCreate : ModuleCompletionCreate :=
  { module_id := "m29", pathway_id := "q", time_spent_minutes := 0 }

/-- Concrete module for the C5 witness. -/
def c5Module : Module := { id := "m1", pathway_id := "p" }

/-- Concrete upload-requiring resource for the C5 witness. -/
def c5Resource : Resource :=
  { id := "r1", module_id := "m1", pathway_id := "p", title := "Lab",
    requires_upload := true, accepted_file_types := none,
    max_file_size_mb := 50 }

/-- Concrete submitted completion for the C5 witness. -/
def c5Completion : ResourceCompletion :=
  { user_id := 1, resource_id := "r1", module_id := "m1", pathway_id := "p",
    status := "submitted", progress_percentage := 100, submission_count := 1,
    submission_required := true }

/-- Concrete database for the C5 witness. -/
def c5Db : Db :=
  { emptyDb with
    pathways := [c4Pathway], modules := [c5Module],
    resources := [c5Resource], resource_completions := [c5Completion],
    user_progress := [c4Up] }

/-- A catalog streak achievement with threshold 0, the C7 edge case. -/
def c7Achievement : Achievement :=
  { id := "streak-zero", requirement_type := "streak_days",
    requirement_value := 0 }

/-- Concrete database for the C7 counterexample and witness: the catalog
holds only the zero-threshold streak achievement, and the user has no
rows at all. -/
def c7Db : Db := { emptyDb with achievements := [c7Achievement] }

end Progress

/-! ## Resource submission subsystem (app/core/gcs.py,
app/api/v1/resources.py, app/crud/resource.py) -/

namespace Resources

open Progress

/-- The wildcard/exact matching of one `allowed_type` entry against the
guessed MIME type (app/core/gcs.py lines 206-216): an entry ending in
`/*` matches any type in its first `/`-separated category, any other
entry matches exactly. -/
def matchesEntry (mime_type allowed_type : String) : Bool :=
  if allowed_type.endsWith "/*" then
    mime_type.startsWith (((allowed_type.splitOn "/").headD "") ++ "/")
  else mime_type == allowed_type

/-- `validate_file_upload` (app/core/gcs.py lines 174-221).  `guess`
models `mimetypes.guess_type`; returns `(is_valid, error_message)`.
`allowed_types` is skipped when `None` or empty (Python `if
allowed_types:`). -/
def validate_file_upload (guess : String → Option String) (filename : String)
    (file_size : Int) (allowed_types : Option (List String))
    (max_size_mb : Int) : Bool × Option String :=
  let max_size_bytes := max_size_mb * 1024 * 1024
  if max_size_bytes < file_size then
    (false, some "File size exceeds maximum allowed size")
  else
    match guess filename with
    | none => (false, some "Could not determine file type")
    | some mime_type =>
      match allowed_types with
      | none => (true, none)
      | some l =>
        if l.isEmpty then (true, none)
        else if l.any (fun t => matchesEntry mime_type t) then (true, none)
        else (false, some "File type is not allowed")

/-- `generate_unique_filename` (app/core/gcs.py lines 224-236): a
timestamp prefix (abstracted to the string `ts`) plus the sanitized
original name. -/
def generate_unique_filename (ts : String) (original : String) : String :=
  let safe := String.mk (original.toList.filter
    (fun ch => ch.isAlphanum || ch == '.' || ch == '_' || ch == '-' || ch == ' '))
  ts ++ "_" ++ safe

/-- `build_gcs_path` (app/core/gcs.py lines 239-257). -/
def build_gcs_path (pathway_id user_id resource_id filename : String) : String :=
  "pathways/" ++ pathway_id ++ "/users/" ++ user_id ++ "/resources/"
    ++ resource_id ++ "/" ++ filename

/-- `get_resource_by_id` (app/crud/resource.py lines 14-19). -/
def get_resource_by_id (db : Db) (rid : String) : Option Resource :=
  db.resources.find? (fun r => r.id == rid)

/-- `get_resource_completion` (app/crud/resource.py lines 43-57). -/
def get_resource_completion (db : Db) (uid : Nat) (rid : String) :
    Option ResourceCompletion :=
  db.resource_completions.find? (fun c =>
    c.user_id == uid && c.resource_id == rid)

/-- `create_resource_completion` (app/crud/resource.py lines 59-83):
insert an `'in_progress'` row for the resource. -/
def create_resource_completion (db : Db) (uid : Nat) (r : Resource) :
    Db × ResourceCompletion :=
  let row : ResourceCompletion :=
    { user_id := uid, resource_id := r.id, module_id := r.module_id,
      pathway_id := r.pathway_id, status := "in_progress",
      progress_percentage := 0, submission_count := 0,
      submission_required := r.requires_upload }
  ({ db with resource_completions := db.resource_completions ++ [row] }, row)

/-- `create_resource_submission` (app/crud/resource.py lines 166-201):
insert the `'uploaded'` submission row.  `sid` models the generated UUID
primary key. -/
def create_resource_submission (db : Db) (sid : Nat) (uid : Nat)
    (rid : String) (file_name : String) (file_size_bytes : Int)
    (file_type gcs_bucket gcs_path gcs_url : String) :
    Db × ResourceSubmission :=
  let row : ResourceSubmission :=
    { id := sid, user_id := uid, resource_id := rid, file_name := file_name,
      file_size_bytes := file_size_bytes, file_type := file_type,
      gcs_bucket := gcs_bucket, gcs_path := gcs_path, gcs_url := gcs_url,
      submission_status := "uploaded", grade := none, review_comments := none,
      reviewed_by := none, deleted_at := none }
  ({ db with submissions := db.submissions ++ [row] }, row)

/-- `settings.GCS_BUCKET_NAME` default (app/core/config.py line 39). -/
def GCS_BUCKET_NAME : String := "aibc-submissions"

/-- `GCSManager.upload_file` (app/core/gcs.py lines 40-76): store the
object and return its `gs://` URL. -/
def gcs_upload_file (db : Db) (destination_path : String) : Db × String :=
  ({ db with gcs_objects := db.gcs_objects ++ [destination_path] },
   "gs://" ++ GCS_BUCKET_NAME ++ "/" ++ destination_path)

/-- The `upload_resource_file` handler (app/api/v1/resources.py lines
292-400): 404 for a missing resource, 400 when the resource takes no
uploads, get-or-create the completion row, validate the file (400 on
rejection, before any object is stored or submission row created), then
store the object and record the submission.  `ts` abstracts the upload
timestamp string, `sid` the generated submission id, `uidStr` the
user-id string used in the object path. -/
def upload_resource_file (guess : String → Option String) (db : Db)
    (uid : Nat) (uidStr : String) (rid : String) (ts : String) (sid : Nat)
    (filename : String) (file_size : Int) (content_type : String) :
    Db × Except Nat ResourceSubmission :=
  match get_resource_by_id db rid with
  | none => (db, .error 404)
  | some r =>
    if ¬ r.requires_upload then (db, .error 400)
    else
      let (db1, _completion) :=
        match get_resource_completion db uid rid with
        | some cm => (db, cm)
        | none => create_resource_completion db uid r
      match validate_file_upload guess filename file_size
          r.accepted_file_types r.max_file_size_mb with
      | (false, _) => (db1, .error 400)
      | (true, _) =>
        let unique_filename := generate_unique_filename ts filename
        let gcs_path := build_gcs_path r.pathway_id uidStr rid unique_filename
        let (db2, gcs_url) := gcs_upload_file db1 gcs_path
        let (db3, sub) := create_resource_submission db2 sid uid rid filename
          file_size content_type GCS_BUCKET_NAME gcs_path gcs_url
        (db3, .ok sub)

/-- `get_submission_by_id` (app/crud/resource.py lines 203-208). -/
def get_submission_by_id (db : Db) (sid : Nat) : Option ResourceSubmission :=
  db.submissions.find? (fun s => s.id == sid)

/-- `soft_delete_submission` (app/crud/resource.py lines 229-237): stamp
`deleted_at` on the row, all other columns untouched. -/
def soft_delete_submission (db : Db) (now : Int) (sid : Nat) : Db :=
  { db with submissions := db.submissions.map (fun s =>
      if s.id = sid then { s with deleted_at := some now } else s) }

/-- The `get_submission_download_url` handler (app/api/v1/resources.py
lines 421-462): 404 when missing, 403 for a non-owner, otherwise a signed
URL for the stored object (`sign` models
`GCSManager.generate_signed_url`). -/
def get_submission_download_url (sign : String → String) (db : Db)
    (uid : Nat) (sid : Nat) : Db × Except Nat String :=
  match get_submission_by_id db sid with
  | none => (db, .error 404)
  | some sub =>
    if sub.user_id ≠ uid then (db, .error 403)
    else (db, .ok (sign sub.gcs_path))

/-- The `delete_submission` handler (app/api/v1/resources.py lines
464-500): 404 when missing, 403 for a non-owner, otherwise the soft
delete. -/
def delete_submission (db : Db) (now : Int) (uid : Nat) (sid : Nat) :
    Db × Except Nat Unit :=
  match get_submission_by_id db sid with
  | none => (db, .error 404)
  | some sub =>
    if sub.user_id ≠ uid then (db, .error 403)
    else (soft_delete_submission db now sid, .ok ())

/-- Concrete upload-requiring resource for the C8 witness. -/
def c8Resource : Resource :=
  { id := "r8", module_id := "m1", pathway_id := "p", title := "Project",
    requires_upload := true,
    accepted_file_types := some ["image/*", "application/pdf"],
    max_file_size_mb := 10 }

/-- Concrete database for the C8 witness. -/
def c8Db : Db := { emptyDb with resources := [c8Resource] }

/-- Concrete stored submission for the C10 witness, owned by user 1. -/
def c10Sub : ResourceSubmission :=
  { id := 42, user_id := 1, resource_id := "r8", file_name := "art.png",
    file_size_bytes := 100, file_type := "image/png",
    gcs_bucket := GCS_BUCKET_NAME,
    gcs_path := "pathways/p/users/1/resources/r8/t_art.png",
    gcs_url := "gs://aibc-submissions/pathways/p/users/1/resources/r8/t_art.png",
    submission_status := "uploaded", grade := none, review_comments := none,
    reviewed_by := none, deleted_at := none }

/-- Concrete database for the C10 witness. -/
def c10Db : Db := { emptyDb with submissions := [c10Sub] }

end Resources

/-! ## Email subsystem (app/core/email.py, app/crud/email_log.py,
app/core/config.py) -/

namespace Email

/-- `settings.EMAIL_RETRY_ATTEMPTS` (app/core/config.py line 60). -/
def EMAIL_RETRY_ATTEMPTS : Nat := 3

/-- `settings.EMAIL_RETRY_DELAY_SECONDS` (app/core/config.py line 61). -/
def EMAIL_RETRY_DELAY_SECONDS : Nat := 60

/-- The observable outcome of one `send_email` call: the returned boolean,
how many SMTP attempts were made, the back-off sleeps performed (in
seconds, in order), and the final status of the `EmailLog` row (`none`
when no log row was created). -/
structure SendOutcome where
  result : Bool
  attempts_made : Nat
  waits : List Nat
  log_status : Option String
deriving Repr, DecidableEq

/-- The retry loop of `send_email` (app/core/email.py lines 168-199).
`attemptOk k` tells whether the k-th (0-based) SMTP delivery attempt
succeeds; on success the log row is marked `'sent'`, after the final
failure it is marked `'failed'`, and after each non-final failure the
loop sleeps `retry_delay * 2 ^ attempt` seconds. -/
def sendLoop (attemptOk : Nat → Bool) (retry_attempts retry_delay : Nat)
    (log : Option String) : Nat → Nat → List Nat → SendOutcome
  | attempt, 0, waits =>
      { result := false, attempts_made := attempt, waits := waits,
        log_status := log }
  | attempt, remaining + 1, waits =>
      if attemptOk attempt then
        { result := true, attempts_made := attempt + 1, waits := waits,
          log_status := log.map (fun _ => "sent") }
      else if attempt + 1 < retry_attempts then
        sendLoop attemptOk retry_attempts retry_delay log (attempt + 1) remaining
          (waits ++ [retry_delay * 2 ^ attempt])
      else
        { result := false, attempts_made := attempt + 1, waits := waits,
          log_status := log.map (fun _ => "failed") }

/-- `EmailService.send_email` (app/core/email.py lines 92-199): no attempt
is made when notifications are disabled or the SMTP credentials are
blank; otherwise a log row is created when a db session and metadata were
passed (`logging`), and delivery runs through the retry loop. -/
def send_email (notifications_enabled : Bool) (smtp_username smtp_password : String)
    (logging : Bool) (attemptOk : Nat → Bool) : SendOutcome :=
  if ¬ notifications_enabled then
    { result := false, attempts_made := 0, waits := [], log_status := none }
  else if smtp_username = "" ∨ smtp_password = "" then
    { result := false, attempts_made := 0, waits := [], log_status := none }
  else
    let log : Option String := if logging then some "pending" else none
    sendLoop attemptOk EMAIL_RETRY_ATTEMPTS EMAIL_RETRY_DELAY_SECONDS log
      0 EMAIL_RETRY_ATTEMPTS []

end Email

namespace Auth

/-- In a table whose `id` column has no duplicates, looking a member row up
by its id returns that row. -/
theorem find_id_of_mem {l : List User} {u : User}
    (hmem : u ∈ l) (hnodup : (l.map User.id).Nodup) :
    l.find? (fun v => v.id == u.id) = some u := by
  induction l with
  | nil => cases hmem
  | cons a t ih =>
    simp only [List.map_cons, List.nodup_cons] at hnodup
    rcases List.mem_cons.mp hmem with h | h
    · subst h; simp [List.find?]
    · have hne : ¬ (a.id = u.id) := fun he =>
        hnodup.1 (he ▸ List.mem_map_of_mem User.id h)
      have : (a.id == u.id) = false := beq_eq_false_iff_ne.mpr hne
      simp only [List.find?, this]
      exact ih h hnodup.2

/-- Looking up a row by id after an id-preserving `UPDATE ... WHERE id`
returns the updated row. -/
theorem find_update_of_mem {l : List User} {u : User} (f : User → User)
    (hf : ∀ v, (f v).id = v.id)
    (hmem : u ∈ l) (hnodup : (l.map User.id).Nodup) :
    (l.map (fun v => if v.id = u.id then f v else v)).find?
      (fun v => v.id == u.id) = some (f u) := by
  induction l with
  | nil => cases hmem
  | cons a t ih =>
    simp only [List.map_cons, List.nodup_cons] at hnodup
    rcases List.mem_cons.mp hmem with h | h
    · subst h
      simp [List.find?, hf]
    · have hne : ¬ (a.id = u.id) := fun he =>
        hnodup.1 (he ▸ List.mem_map_of_mem User.id h)
      have hb : (a.id == u.id) = false := beq_eq_false_iff_ne.mpr hne
      simp only [List.map_cons, if_neg hne, List.find?, hb]
      exact ih h hnodup.2

/-- **C1**: a login whose password fails bcrypt verification returns HTTP
401, issues no token and saves no refresh-token row, and increments the
user's `failed_login_attempts`; once the new counter reaches
`MAX_LOGIN_ATTEMPTS` (5), `locked_until` is set `LOCKOUT_DURATION_MINUTES`
(30) into the future; and any login attempted while `locked_until` lies in
the future returns HTTP 423. -/
theorem C1_login_lockout (verify : String → String → Bool) (h : String → String)
    (now : Int) (atok rtok : String) (rexp : Int) (ip ua : Option String)
    (db : AuthDb) (email pw : String) (u : User)
    (hu : get_user_by_email db email = some u)
    (hnodup : (db.users.map User.id).Nodup) :
    (isLocked u now = true →
      login verify h now atok rtok rexp ip ua db email pw = (db, .error 423)) ∧
    (isLocked u now = false → verify pw u.password_hash = false →
      login verify h now atok rtok rexp ip ua db email pw
          = (increment_failed_login db now u.id, .error 401) ∧
      (increment_failed_login db now u.id).refresh_tokens = db.refresh_tokens ∧
      get_user_by_id (increment_failed_login db now u.id) u.id = some
        { u with
          failed_login_attempts := u.failed_login_attempts + 1,
          locked_until :=
            if MAX_LOGIN_ATTEMPTS ≤ u.failed_login_attempts + 1 then
              some (now + LOCKOUT_DURATION_MINUTES)
            else u.locked_until }) := by
  have hmem : u ∈ db.users := List.mem_of_find?_eq_some hu
  have hid : get_user_by_id db u.id = some u := find_id_of_mem hmem hnodup
  have hinc : increment_failed_login db now u.id
      = updateUser db u.id (fun v => { v with
          failed_login_attempts := u.failed_login_attempts + 1,
          locked_until := if MAX_LOGIN_ATTEMPTS ≤ u.failed_login_attempts + 1
            then some (now + LOCKOUT_DURATION_MINUTES) else u.locked_until }) := by
    unfold increment_failed_login
    rw [hid]
  refine ⟨fun hlock => ?_, fun hnl hv => ?_⟩
  · unfold login
    rw [hu]
    simp [hlock]
  · refine ⟨?_, ?_, ?_⟩
    · unfold login
      rw [hu]
      simp [hnl, hv]
    · rw [hinc]; rfl
    · rw [hinc]
      unfold get_user_by_id updateUser
      exact find_update_of_mem _ (fun v => rfl) hmem hnodup

/-- Witness for C1 at a concrete one-user database. -/
theorem C1_login_lockout_witness :
    (isLocked c1User 0 = true →
      login (fun _ _ => false) (fun s => s) 0 "a" "r" 10080 none none c1Db
        "s@rit.edu" "pw" = (c1Db, .error 423)) ∧
    (isLocked c1User 0 = false → (fun _ _ => false : String → String → Bool)
        "pw" c1User.password_hash = false →
      login (fun _ _ => false) (fun s => s) 0 "a" "r" 10080 none none c1Db
          "s@rit.edu" "pw"
          = (increment_failed_login c1Db 0 c1User.id, .error 401) ∧
      (increment_failed_login c1Db 0 c1User.id).refresh_tokens
          = c1Db.refresh_tokens ∧
      get_user_by_id (increment_failed_login c1Db 0 c1User.id) c1User.id = some
        { c1User with
          failed_login_attempts := c1User.failed_login_attempts + 1,
          locked_until :=
            if MAX_LOGIN_ATTEMPTS ≤ c1User.failed_login_attempts + 1 then
              some ((0 : Int) + LOCKOUT_DURATION_MINUTES)
            else c1User.locked_until }) :=
  C1_login_lockout (fun _ _ => false) (fun s => s) 0 "a" "r" 10080 none none
    c1Db "s@rit.edu" "pw" c1User (by rfl) (by decide)

/-- **C2**: a successful refresh revokes the stored row for the presented
token `t` in the state it returns, stores the new refresh token only as
its hash `h nr`, and a second refresh presenting the same `t` against the
resulting state fails with HTTP 401 (single use).  `h` models SHA-256
`hash_token`; the freshly minted token hashes differently from `t`. -/
theorem C2_refresh_rotation (jwtOk : String → Bool) (h : String → String)
    (now : Int) (na nr : String) (rexp : Int) (ip ua : Option String)
    (db : AuthDb) (t : String) (stored : RefreshToken) (user : User)
    (hjwt : jwtOk t = true)
    (hstored : get_refresh_token h db now t = some stored)
    (huser : get_user_by_id db stored.user_id = some user)
    (hactive : user.account_status = "active")
    (hfresh : h nr ≠ h t) :
    (refresh jwtOk h now na nr rexp ip ua db t).2
        = .ok { access_token := na, refresh_token := nr } ∧
    (refresh jwtOk h now na nr rexp ip ua db t).1.refresh_tokens
        = (db.refresh_tokens.map (fun r =>
             if r.token_hash = h t then { r with revoked_at := some now } else r))
          ++ [{ user_id := user.id, token_hash := h nr, expires_at := now + rexp,
                revoked_at := none, ip_address := ip, user_agent := ua }] ∧
    (∀ row ∈ (refresh jwtOk h now na nr rexp ip ua db t).1.refresh_tokens,
        row.token_hash = h t → row.revoked_at = some now) ∧
    (∀ now2 na2 nr2 rexp2 ip2 ua2,
      refresh jwtOk h now2 na2 nr2 rexp2 ip2 ua2
          (refresh jwtOk h now na nr rexp ip ua db t).1 t
        = ((refresh jwtOk h now na nr rexp ip ua db t).1, .error 401)) := by
  have hr : refresh jwtOk h now na nr rexp ip ua db t
      = ({ db with refresh_tokens :=
            (db.refresh_tokens.map (fun r =>
              if r.token_hash = h t then { r with revoked_at := some now } else r))
            ++ [{ user_id := user.id, token_hash := h nr, expires_at := now + rexp,
                  revoked_at := none, ip_address := ip, user_agent := ua }] },
         .ok { access_token := na, refresh_token := nr }) := by
    simp [refresh, hjwt, hstored, huser, hactive, revoke_refresh_token,
      save_refresh_token]
  have hrows : ∀ row ∈ (refresh jwtOk h now na nr rexp ip ua db t).1.refresh_tokens,
      row.token_hash = h t → row.revoked_at = some now := by
    rw [hr]
    intro row hrow hhash
    rcases List.mem_append.mp hrow with hl | hl
    · rcases List.mem_map.mp hl with ⟨r, _, hre⟩
      by_cases hc : r.token_hash = h t
      · rw [if_pos hc] at hre
        rw [← hre]
      · rw [if_neg hc] at hre
        exact absurd (hre ▸ hhash) hc
    · rcases List.mem_singleton.mp hl with rfl
      exact absurd hhash hfresh
  refine ⟨by rw [hr], by rw [hr], hrows, ?_⟩
  intro now2 na2 nr2 rexp2 ip2 ua2
  have hnone :
      get_refresh_token h (refresh jwtOk h now na nr rexp ip ua db t).1 now2 t
        = none := by
    apply List.find?_eq_none.mpr
    intro row hrow
    by_cases hhash : row.token_hash = h t
    · have := hrows row hrow hhash
      simp [hhash, this]
    · simp [hhash]
  have h401 : ∀ dbx : AuthDb, get_refresh_token h dbx now2 t = none →
      refresh jwtOk h now2 na2 nr2 rexp2 ip2 ua2 dbx t = (dbx, .error 401) := by
    intro dbx hx
    unfold refresh
    rw [hjwt, hx]
    simp
  exact h401 _ hnone

/-- Witness for C2 at a concrete database holding one live refresh
token. -/
theorem C2_refresh_rotation_witness :
    (refresh (fun _ => true) (fun s => "#" ++ s) 0 "na" "nr" 7 none none
        c2Db "tok").2
        = .ok { access_token := "na", refresh_token := "nr" } ∧
    (refresh (fun _ => true) (fun s => "#" ++ s) 0 "na" "nr" 7 none none
        c2Db "tok").1.refresh_tokens
        = (c2Db.refresh_tokens.map (fun r =>
             if r.token_hash = "#" ++ "tok" then { r with revoked_at := some 0 }
             else r))
          ++ [{ user_id := c1User.id, token_hash := "#" ++ "nr",
                expires_at := (0 : Int) + 7, revoked_at := none,
                ip_address := none, user_agent := none }] ∧
    (∀ row ∈ (refresh (fun _ => true) (fun s => "#" ++ s) 0 "na" "nr" 7 none
        none c2Db "tok").1.refresh_tokens,
        row.token_hash = "#" ++ "tok" → row.revoked_at = some 0) ∧
    (∀ now2 na2 nr2 rexp2 ip2 ua2,
      refresh (fun _ => true) (fun s => "#" ++ s) now2 na2 nr2 rexp2 ip2 ua2
          (refresh (fun _ => true) (fun s => "#" ++ s) 0 "na" "nr" 7 none none
            c2Db "tok").1 "tok"
        = ((refresh (fun _ => true) (fun s => "#" ++ s) 0 "na" "nr" 7 none none
            c2Db "tok").1, .error 401)) :=
  C2_refresh_rotation (fun _ => true) (fun s => "#" ++ s) 0 "na" "nr" 7
    none none c2Db "tok" c2Stored c1User (by rfl) (by rfl) (by rfl) (by rfl)
    (by decide)

end Auth

namespace Progress

/-- **C6**: for a user with a streak row whose `last_activity_date` is `d`,
running `update_learning_streak` on day `t` leaves `current_streak`
unchanged when `t - d = 0`, increments it (raising `longest_streak` to at
least the new value) when `t - d = 1`, and resets it to 1 when
`t - d > 1`; in every case `last_activity_date` becomes `t`; a user with
no streak row gets a fresh row with `current_streak = longest_streak =
1`. -/
theorem C6_streak_day_difference (db : Db) (today : Int) (uid : Nat) :
    (get_learning_streak db uid = none →
      (update_learning_streak db today uid).2
          = { user_id := uid, current_streak := 1, longest_streak := 1,
              last_activity_date := some today } ∧
      (update_learning_streak db today uid).1.streaks
          = db.streaks ++ [(update_learning_streak db today uid).2]) ∧
    (∀ s d, get_learning_streak db uid = some s →
      s.last_activity_date = some d →
      (update_learning_streak db today uid).1.streaks
          = db.streaks.map (fun r =>
              if r.user_id = uid then (update_learning_streak db today uid).2
              else r) ∧
      (today - d = 0 →
        (update_learning_streak db today uid).2
            = { s with last_activity_date := some today }) ∧
      (today - d = 1 →
        (update_learning_streak db today uid).2
            = { s with
                current_streak := s.current_streak + 1,
                longest_streak := max s.longest_streak (s.current_streak + 1),
                last_activity_date := some today } ∧
        (update_learning_streak db today uid).2.current_streak
            ≤ (update_learning_streak db today uid).2.longest_streak) ∧
      (1 < today - d →
        (update_learning_streak db today uid).2
            = { s with
                current_streak := 1,
                last_activity_date := some today })) := by
  constructor
  · intro hnone
    unfold update_learning_streak
    rw [hnone]
    exact ⟨rfl, rfl⟩
  · intro s d hs hd
    refine ⟨?_, ?_, ?_, ?_⟩
    · simp only [update_learning_streak, hs, hd]
    · intro h0
      simp only [update_learning_streak, hs, hd]
      simp [h0]
    · intro h1
      have h0 : ¬ (today - d = 0) := by omega
      constructor
      · simp only [update_learning_streak, hs, hd]
        simp [h0, h1]
      · simp only [update_learning_streak, hs, hd]
        simp only [h0, h1, if_false, if_true, ite_false, ite_true]
        exact le_max_right _ _
    · intro h2
      have h0 : ¬ (today - d = 0) := by omega
      have h1 : ¬ (today - d = 1) := by omega
      simp only [update_learning_streak, hs, hd]
      simp [h0, h1]

/-- Witness for C6 at a concrete streak row on the next day. -/
theorem C6_streak_day_difference_witness :
    (update_learning_streak c6Db 10 1).2
        = { c6Streak with
            current_streak := c6Streak.current_streak + 1,
            longest_streak :=
              max c6Streak.longest_streak (c6Streak.current_streak + 1),
            last_activity_date := some 10 } ∧
    (update_learning_streak c6Db 10 1).2.current_streak
        ≤ (update_learning_streak c6Db 10 1).2.longest_streak :=
  (((C6_streak_day_difference c6Db 10 1).2 c6Streak 9 (by rfl)
    (by rfl)).2.2.1) (by decide)

/-- `update_learning_streak` writes only the `streaks` table. -/
theorem streak_only_streaks (db : Db) (today : Int) (uid : Nat) :
    (update_learning_streak db today uid).1.user_progress = db.user_progress ∧
    (update_learning_streak db today uid).1.module_completions
        = db.module_completions ∧
    (update_learning_streak db today uid).1.pathways = db.pathways ∧
    (update_learning_streak db today uid).1.user_achievements
        = db.user_achievements := by
  unfold update_learning_streak
  cases get_learning_streak db uid <;> exact ⟨rfl, rfl, rfl, rfl⟩

/-- `award_achievement` writes only the `user_achievements` table. -/
theorem award_only_user_achievements (db : Db) (uid : Nat) (aid : String) :
    (award_achievement db uid aid).1.user_progress = db.user_progress ∧
    (award_achievement db uid aid).1.module_completions = db.module_completions ∧
    (award_achievement db uid aid).1.pathways = db.pathways ∧
    (award_achievement db uid aid).1.streaks = db.streaks ∧
    (award_achievement db uid aid).1.achievements = db.achievements := by
  unfold award_achievement
  split <;> exact ⟨rfl, rfl, rfl, rfl, rfl⟩

/-- The achievement-award fold writes only the `user_achievements`
table. -/
theorem foldl_award_only_user_achievements (uid : Nat) (P : Achievement → Bool) :
    ∀ (l : List Achievement) (acc : Db),
      (l.foldl (fun acc a =>
          if P a then (award_achievement acc uid a.id).1 else acc) acc).user_progress
          = acc.user_progress ∧
      (l.foldl (fun acc a =>
          if P a then (award_achievement acc uid a.id).1 else acc) acc).module_completions
          = acc.module_completions ∧
      (l.foldl (fun acc a =>
          if P a then (award_achievement acc uid a.id).1 else acc) acc).pathways
          = acc.pathways ∧
      (l.foldl (fun acc a =>
          if P a then (award_achievement acc uid a.id).1 else acc) acc).streaks
          = acc.streaks ∧
      (l.foldl (fun acc a =>
          if P a then (award_achievement acc uid a.id).1 else acc) acc).achievements
          = acc.achievements := by
  intro l
  induction l with
  | nil => intro acc; exact ⟨rfl, rfl, rfl, rfl, rfl⟩
  | cons a t ih =>
    intro acc
    simp only [List.foldl_cons]
    by_cases hP : P a = true
    · rw [if_pos hP]
      obtain ⟨h1, h2, h3, h4, h5⟩ := ih (award_achievement acc uid a.id).1
      obtain ⟨g1, g2, g3, g4, g5⟩ := award_only_user_achievements acc uid a.id
      exact ⟨h1.trans g1, h2.trans g2, h3.trans g3, h4.trans g4, h5.trans g5⟩
    · rw [if_neg hP]
      exact ih acc

/-- `check_and_award_achievements` writes only the `user_achievements`
table. -/
theorem check_only_user_achievements (db : Db) (uid : Nat) :
    (check_and_award_achievements db uid).user_progress = db.user_progress ∧
    (check_and_award_achievements db uid).module_completions
        = db.module_completions ∧
    (check_and_award_achievements db uid).pathways = db.pathways ∧
    (check_and_award_achievements db uid).streaks = db.streaks ∧
    (check_and_award_achievements db uid).achievements = db.achievements := by
  unfold check_and_award_achievements
  exact foldl_award_only_user_achievements uid _ db.achievements db

/-- Replacing the keyed `UserProgress` row makes the keyed lookup return
the replacement (every matching position is replaced, so no uniqueness
assumption is needed). -/
theorem find_set_eq {l : List UserProgress} {uid : Nat} {pid : String}
    {up : UserProgress}
    (hfind : l.find? (fun q => q.user_id == uid && q.pathway_id == pid) = some up)
    (row : UserProgress)
    (hrow : (row.user_id == uid && row.pathway_id == pid) = true) :
    (l.map (fun q => if q.user_id = uid ∧ q.pathway_id = pid then row else q)).find?
      (fun q => q.user_id == uid && q.pathway_id == pid) = some row := by
  induction l with
  | nil => simp at hfind
  | cons a t ih =>
    by_cases ha : (a.user_id == uid && a.pathway_id == pid) = true
    · have hcond : a.user_id = uid ∧ a.pathway_id = pid := by
        simpa [Bool.and_eq_true, beq_iff_eq] using ha
      simp [List.find?, hcond, hrow]
    · have hcond : ¬ (a.user_id = uid ∧ a.pathway_id = pid) := by
        simp only [Bool.and_eq_true, beq_iff_eq] at ha
        exact fun hc => ha ⟨by simp [hc.1], by simp [hc.2]⟩
      have hfind' : t.find? (fun q => q.user_id == uid && q.pathway_id == pid)
          = some up := by
        simpa [List.find?, ha] using hfind
      simpa [List.find?, if_neg hcond, ha] using ih hfind'

/-- `twoPow` agrees with the integer power of two. -/
lemma twoPow_eq (k : Int) : twoPow k = (2:ℚ) ^ k := by
  unfold twoPow
  split_ifs with h
  · push_cast
    rw [← zpow_natCast, Int.toNat_of_nonneg h]
  · push_cast
    rw [← zpow_natCast, Int.toNat_of_nonneg (by omega : (0:ℤ) ≤ -k)]
    rw [one_div, zpow_neg, inv_inv]

/-- `log2Aux` with enough fuel gives a true lower bound: `2 ^ log2Aux`
stays below its (nonzero) input. -/
lemma log2Aux_pow_le (fuel n : Nat) (hfuel : n ≤ fuel) (hn : n ≠ 0) :
    2 ^ log2Aux fuel n ≤ n := by
  induction fuel generalizing n with
  | zero => exact absurd (Nat.le_zero.mp hfuel) hn
  | succ f ih =>
    by_cases h2 : 2 ≤ n
    · have hstep : log2Aux (f+1) n = log2Aux f (n / 2) + 1 := by
        simp [log2Aux, h2]
      rw [hstep, pow_succ]
      have ihh := ih (n / 2) (by omega) (by omega)
      omega
    · have h1 : n = 1 := by omega
      subst h1
      simp [log2Aux]

/-- `log2Aux` with enough fuel gives a strict upper bound: the input is
below `2 ^ (log2Aux + 1)`. -/
lemma lt_log2Aux_pow (fuel n : Nat) (hfuel : n ≤ fuel) :
    n < 2 ^ (log2Aux fuel n + 1) := by
  induction fuel generalizing n with
  | zero =>
    have h0 : n = 0 := Nat.le_zero.mp hfuel
    subst h0
    simp [log2Aux]
  | succ f ih =>
    by_cases h2 : 2 ≤ n
    · have hstep : log2Aux (f+1) n = log2Aux f (n / 2) + 1 := by
        simp [log2Aux, h2]
      rw [hstep, pow_succ]
      have ihh := ih (n / 2) (by omega)
      omega
    · have hstep : log2Aux (f+1) n = 0 := by
        simp [log2Aux, h2]
      rw [hstep]
      norm_num
      omega

/-- `natLog2` lower-bound witness. -/
lemma natLog2_self_le {n : Nat} (hn : n ≠ 0) : 2 ^ natLog2 n ≤ n :=
  log2Aux_pow_le n n le_rfl hn

/-- `natLog2` strict upper-bound witness. -/
lemma lt_natLog2_self {n : Nat} : n < 2 ^ (natLog2 n + 1) :=
  lt_log2Aux_pow n n le_rfl

/-- `floorLog2` really is a lower witness: `2 ^ floorLog2 q ≤ q` for
positive `q`. -/
lemma floorLog2_le {q : ℚ} (hq : 0 < q) : (2 : ℚ) ^ floorLog2 q ≤ q := by
  have hnum : 0 < q.num := Rat.num_pos.mpr hq
  have hden : 0 < q.den := q.pos
  have hdenQ : (0 : ℚ) < (q.den : ℚ) := by exact_mod_cast hden
  have hnat : ((q.num.natAbs : ℚ)) = ((q.num : ℚ)) := by
    rw [Int.cast_natAbs]
    exact_mod_cast abs_of_nonneg hnum.le
  have hnum_eq : ((q.num : ℚ)) = q * (q.den : ℚ) := by
    have h := Rat.num_div_den q
    rw [div_eq_iff hdenQ.ne'] at h
    exact h
  have key : (2 : ℚ) ^ ((natLog2 q.num.natAbs : ℤ) - (natLog2 q.den : ℤ) - 1)
      ≤ q := by
    have ha : (2 : ℚ) ^ natLog2 q.num.natAbs ≤ (q.num.natAbs : ℚ) := by
      exact_mod_cast natLog2_self_le (by omega)
    have hb : (q.den : ℚ) ≤ (2 : ℚ) ^ (natLog2 q.den + 1) := by
      exact_mod_cast Nat.le_of_lt lt_natLog2_self
    have hsplit : (natLog2 q.num.natAbs : ℤ) - (natLog2 q.den : ℤ) - 1
        = (natLog2 q.num.natAbs : ℤ) - ((natLog2 q.den : ℤ) + 1) := by ring
    have hpos : (0 : ℚ) < 2 ^ ((natLog2 q.den : ℤ) + 1) := by positivity
    rw [hsplit, zpow_sub₀ (by norm_num : (2:ℚ) ≠ 0), div_le_iff hpos]
    have hcast : ((natLog2 q.den : ℤ) + 1) = ((natLog2 q.den + 1 : ℕ) : ℤ) := by
      push_cast
      ring
    rw [hcast, zpow_natCast, zpow_natCast]
    calc (2:ℚ) ^ natLog2 q.num.natAbs
        ≤ (q.num.natAbs : ℚ) := ha
      _ = q * (q.den : ℚ) := hnat.trans hnum_eq
      _ ≤ q * 2 ^ (natLog2 q.den + 1) := by
          exact mul_le_mul_of_nonneg_left hb hq.le
  simp only [floorLog2, twoPow_eq]
  split_ifs with h
  · exact h
  · exact key

/-- `roundHalfEven` never rounds up by more than half a unit. -/
lemma roundHalfEven_le (x : ℚ) : (roundHalfEven x : ℚ) ≤ x + 1/2 := by
  have h1 : (⌊x⌋ : ℚ) ≤ x := Int.floor_le x
  simp only [roundHalfEven]
  split_ifs with ha hb hc
  · linarith
  · push_cast
    linarith
  · linarith
  · push_cast
    have hge := le_of_not_lt ha
    linarith

/-- `roundHalfEven` never rounds down by more than half a unit. -/
lemma roundHalfEven_ge (x : ℚ) : x - 1/2 ≤ (roundHalfEven x : ℚ) := by
  have h1 : x - 1 < (⌊x⌋ : ℚ) := Int.sub_one_lt_floor x
  simp only [roundHalfEven]
  split_ifs with ha hb hc
  · linarith
  · push_cast
    linarith
  · have hle := le_of_not_lt hb
    linarith
  · push_cast
    linarith

/-- Correct rounding is accurate to one part in `2 ^ 53` (half an ulp) on
positive inputs. -/
lemma f64Round_bounds {q : ℚ} (hq : 0 < q) :
    q * (1 - 1 / 2 ^ 53) ≤ f64Round q ∧ f64Round q ≤ q * (1 + 1 / 2 ^ 53) := by
  have hne : q ≠ 0 := hq.ne'
  have hnlt : ¬ q < 0 := not_lt.mpr hq.le
  have h2ne : (2:ℚ) ≠ 0 := by norm_num
  have h2e : (2:ℚ) ^ floorLog2 q ≤ q := floorLog2_le hq
  set e : ℤ := floorLog2 q with he
  set s : ℚ := q * 2 ^ ((52:ℤ) - e) with hs
  have hup : (roundHalfEven s : ℚ) ≤ s + 1/2 := roundHalfEven_le s
  have hdn : s - 1/2 ≤ (roundHalfEven s : ℚ) := roundHalfEven_ge s
  have hpow_pos : (0:ℚ) < 2 ^ (e - 52) := by positivity
  have hcancel : (2:ℚ) ^ ((52:ℤ) - e) * 2 ^ (e - 52) = 1 := by
    rw [← zpow_add₀ h2ne]
    rw [show ((52:ℤ) - e) + (e - 52) = 0 from by ring, zpow_zero]
  have hval : f64Round q = (roundHalfEven s : ℚ) * 2 ^ (e - 52) := by
    rw [hs, he]
    simp only [f64Round, twoPow_eq, if_neg hne, if_neg hnlt]
  have hs_cancel : s * 2 ^ (e - 52) = q := by
    rw [hs, mul_assoc, hcancel, mul_one]
  have hub : f64Round q ≤ q + 2 ^ (e - 52) / 2 := by
    rw [hval, ← hs_cancel]
    calc (roundHalfEven s : ℚ) * 2 ^ (e - 52)
        ≤ (s + 1/2) * 2 ^ (e - 52) :=
          mul_le_mul_of_nonneg_right hup hpow_pos.le
      _ = s * 2 ^ (e - 52) + 2 ^ (e - 52) / 2 := by ring
  have hlb : q - 2 ^ (e - 52) / 2 ≤ f64Round q := by
    rw [hval, ← hs_cancel]
    calc s * 2 ^ (e - 52) - 2 ^ (e - 52) / 2
        = (s - 1/2) * 2 ^ (e - 52) := by ring
      _ ≤ (roundHalfEven s : ℚ) * 2 ^ (e - 52) :=
          mul_le_mul_of_nonneg_right hdn hpow_pos.le
  have hp53 : ((2:ℚ) ^ (53:ℤ)) = 2 ^ (53:ℕ) := by
    norm_num
  have herr : (2:ℚ) ^ (e - 52) / 2 ≤ q / 2 ^ 53 := by
    have h1 : (2:ℚ) ^ (e - 53) * 2 = 2 ^ (e - 52) := by
      rw [← zpow_add_one₀ h2ne]
      rw [show e - 53 + 1 = e - 52 from by ring]
    have h1' : (2:ℚ) ^ (e - 52) / 2 = 2 ^ (e - 53) := by
      rw [eq_comm, eq_div_iff (by norm_num : (2:ℚ) ≠ 0)]
      exact h1
    have h2a : (2:ℚ) ^ (e - 53) = 2 ^ e * 2 ^ (-53 : ℤ) := by
      rw [← zpow_add₀ h2ne]
      rw [show e + (-53) = e - 53 from by ring]
    have h2b : (0:ℚ) < 2 ^ (-53 : ℤ) := by positivity
    have h2c : (2:ℚ) ^ e * 2 ^ (-53:ℤ) ≤ q * 2 ^ (-53:ℤ) :=
      mul_le_mul_of_nonneg_right h2e h2b.le
    have h2d : q * (2:ℚ) ^ (-53:ℤ) = q / 2 ^ 53 := by
      rw [zpow_neg, hp53, div_eq_mul_inv]
    calc (2:ℚ) ^ (e - 52) / 2 = 2 ^ (e - 53) := h1'
      _ = 2 ^ e * 2 ^ (-53:ℤ) := h2a
      _ ≤ q * 2 ^ (-53:ℤ) := h2c
      _ = q / 2 ^ 53 := h2d
  constructor
  · calc q * (1 - 1/2^53) = q - q / 2^53 := by ring
      _ ≤ q - 2 ^ (e - 52) / 2 := by linarith
      _ ≤ f64Round q := hlb
  · calc f64Round q ≤ q + 2 ^ (e - 52) / 2 := hub
      _ ≤ q + q / 2^53 := by linarith
      _ = q * (1 + 1/2^53) := by ring

/-- Correct rounding preserves strict positivity. -/
lemma f64Round_pos {q : ℚ} (hq : 0 < q) : 0 < f64Round q := by
  have h := (f64Round_bounds hq).1
  have h2 : (0:ℚ) < q * (1 - 1/2^53) := by
    apply mul_pos hq
    norm_num
  linarith

/-- The computed percentage lies in the check-constraint range whenever the
new completed count stays within the pathway's module total: the two
rounding errors cannot push `(c/t)*100` past `101`, and the result is
nonnegative, so the truncation lands in `[0, 100]`. -/
theorem progressPct_bounds {c t : Int} (hc : 0 ≤ c) (ht : 0 < t) (hct : c ≤ t) :
    0 ≤ progressPct c t ∧ progressPct c t ≤ 100 := by
  have htQ : (0 : ℚ) < (t : ℚ) := by exact_mod_cast ht
  rcases eq_or_lt_of_le hc with hc0 | hcpos
  · subst hc0
    simp [progressPct, f64Div, f64Mul, f64Round, pyInt]
  · have hcQ : (0:ℚ) < (c : ℚ) := by exact_mod_cast hcpos
    have hq1 : (c : ℚ) / (t : ℚ) ≤ 1 := by
      rw [div_le_one htQ]
      exact_mod_cast hct
    have hqpos : (0:ℚ) < (c : ℚ) / (t : ℚ) := div_pos hcQ htQ
    unfold progressPct pyInt f64Mul f64Div
    set x : ℚ := f64Round ((c:ℚ) / (t:ℚ)) with hxdef
    have hxpos : 0 < x := f64Round_pos hqpos
    have hxle : x ≤ 1 + 1/2^53 := by
      calc x ≤ ((c:ℚ)/(t:ℚ)) * (1 + 1/2^53) := (f64Round_bounds hqpos).2
        _ ≤ 1 * (1 + 1/2^53) := by
            apply mul_le_mul_of_nonneg_right hq1
            norm_num
        _ = 1 + 1/2^53 := one_mul _
    set y : ℚ := f64Round (x * 100) with hydef
    have hx100pos : (0:ℚ) < x * 100 := by positivity
    have hypos : 0 < y := f64Round_pos hx100pos
    have hyle : y < 101 := by
      calc y ≤ (x * 100) * (1 + 1/2^53) := (f64Round_bounds hx100pos).2
        _ ≤ ((1 + 1/2^53) * 100) * (1 + 1/2^53) := by
            have h100 : x * 100 ≤ (1 + 1/2^53) * 100 :=
              mul_le_mul_of_nonneg_right hxle (by norm_num)
            exact mul_le_mul_of_nonneg_right h100 (by norm_num)
        _ < 101 := by norm_num
    rw [if_pos hypos.le]
    refine ⟨Int.floor_nonneg.mpr hypos.le, ?_⟩
    have hfl : ⌊y⌋ < 101 := Int.floor_lt.mpr (by exact_mod_cast hyle)
    omega

set_option maxRecDepth 8000 in
/-- **C4 (counterexample)**: the stored percentage is not the integer
truncation of the exact ratio: completing the 29th of 100 modules
evaluates `(29/100)*100` in IEEE-754 binary64, where `29/100` rounds to
a double slightly below `0.29` and the product rounds to
`28.999999999999996…`, so `int()` stores 28 — while truncating the exact
rational `(29/100)*100 = 29` gives 29. -/
theorem C4_counterexample :
    get_user_progress (mark_module_complete c4BigDb 0 1 c4BigCreate).1 1 "q"
        = some { c4BigUp with
            completed_modules := 29, progress_percentage := some 28 } ∧
    progressPct 29 100 = 28 ∧
    pyInt (((29 : ℚ) / 100) * 100) = 29 := by
  refine ⟨?_, ?_, ?_⟩
  · with_unfolding_all rfl
  · with_unfolding_all rfl
  · with_unfolding_all rfl

/-- **C4 (amended)**: a successful `mark_module_complete` on a module the
user has not completed increments `completed_modules` by exactly one,
sets `progress_percentage` to the `int()` truncation of
`(completed_modules / total_modules) * 100` computed in IEEE-754 binary64
arithmetic (which the counterexample shows can fall one short of the
exact ratio's truncation), and returns a `'pending'` completion; marking
the same (user, module) pair again returns the existing row and changes
nothing. -/
theorem C4_mark_module_pct (db : Db) (today today2 : Int) (uid : Nat)
    (c : ModuleCompletionCreate) (p : Pathway) (up : UserProgress)
    (hno : get_module_completion db uid c.module_id = none)
    (hpath : get_pathway_by_id db c.pathway_id = some p)
    (hup : get_user_progress db uid c.pathway_id = some up)
    (hc0 : 0 ≤ up.completed_modules)
    (hle : up.completed_modules + 1 ≤ p.total_modules) :
    (mark_module_complete db today uid c).2
        = .ok { user_id := uid, pathway_id := c.pathway_id,
                module_id := c.module_id,
                time_spent_minutes := c.time_spent_minutes,
                approval_status := "pending" } ∧
    get_user_progress (mark_module_complete db today uid c).1 uid c.pathway_id
        = some { up with
            completed_modules := up.completed_modules + 1,
            progress_percentage :=
              some (progressPct (up.completed_modules + 1) p.total_modules),
            total_time_spent_minutes :=
              up.total_time_spent_minutes + c.time_spent_minutes,
            completed_at :=
              if progressPct (up.completed_modules + 1) p.total_modules = 100
              then some today else up.completed_at } ∧
    mark_module_complete (mark_module_complete db today uid c).1 today2 uid c
        = ((mark_module_complete db today uid c).1,
           .ok { user_id := uid, pathway_id := c.pathway_id,
                 module_id := c.module_id,
                 time_spent_minutes := c.time_spent_minutes,
                 approval_status := "pending" }) := by
  have ht0 : ¬ (p.total_modules = 0) := by omega
  have hbounds := progressPct_bounds
    (show (0:Int) ≤ up.completed_modules + 1 by omega)
    (show (0:Int) < p.total_modules by omega) hle
  have hmark : mark_module_complete db today uid c
      = (check_and_award_achievements
          (update_learning_streak
            (setUserProgress
              { db with module_completions := db.module_completions ++
                  [{ user_id := uid, pathway_id := c.pathway_id,
                     module_id := c.module_id,
                     time_spent_minutes := c.time_spent_minutes,
                     approval_status := "pending" }] }
              uid c.pathway_id
              { up with
                completed_modules := up.completed_modules + 1,
                progress_percentage :=
                  some (progressPct (up.completed_modules + 1) p.total_modules),
                total_time_spent_minutes :=
                  up.total_time_spent_minutes + c.time_spent_minutes,
                completed_at :=
                  if progressPct (up.completed_modules + 1) p.total_modules = 100
                  then some today else up.completed_at }) today uid).1 uid,
         .ok { user_id := uid, pathway_id := c.pathway_id,
               module_id := c.module_id,
               time_spent_minutes := c.time_spent_minutes,
               approval_status := "pending" }) := by
    unfold mark_module_complete
    rw [hno, hup]
    unfold markCommit
    rw [hpath]
    simp only [if_neg ht0, if_pos hbounds]
  have hup' : db.user_progress.find?
      (fun q => q.user_id == uid && q.pathway_id == c.pathway_id) = some up := hup
  have hpred0 := List.find?_some hup'
  have hpred : (up.user_id == uid && up.pathway_id == c.pathway_id) = true :=
    hpred0
  have hcomp3 : get_module_completion (mark_module_complete db today uid c).1
      uid c.module_id
      = some { user_id := uid, pathway_id := c.pathway_id,
               module_id := c.module_id,
               time_spent_minutes := c.time_spent_minutes,
               approval_status := "pending" } := by
    rw [hmark]
    unfold get_module_completion
    rw [(check_only_user_achievements _ uid).2.1,
        (streak_only_streaks _ today uid).2.1]
    have hno' : db.module_completions.find?
        (fun q => q.user_id == uid && q.module_id == c.module_id) = none := hno
    show ((db.module_completions ++ [_]).find? _) = _
    rw [List.find?_append, hno']
    simp
  refine ⟨by rw [hmark], ?_, ?_⟩
  · rw [hmark]
    unfold get_user_progress
    rw [(check_only_user_achievements _ uid).1,
        (streak_only_streaks _ today uid).1]
    simp only [setUserProgress]
    exact find_set_eq hup' _ hpred
  · have h2 : ∀ dbx, get_module_completion dbx uid c.module_id
        = some { user_id := uid, pathway_id := c.pathway_id,
                 module_id := c.module_id,
                 time_spent_minutes := c.time_spent_minutes,
                 approval_status := "pending" } →
        mark_module_complete dbx today2 uid c
          = (dbx, .ok { user_id := uid, pathway_id := c.pathway_id,
                        module_id := c.module_id,
                        time_spent_minutes := c.time_spent_minutes,
                        approval_status := "pending" }) := by
      intro dbx hx
      unfold mark_module_complete
      rw [hx]
    exact h2 _ hcomp3

/-- Witness for C4 at a concrete two-module pathway with no completions
yet. -/
theorem C4_mark_module_pct_witness :
    (mark_module_complete c4Db 5 1 c4Create).2
        = .ok { user_id := 1, pathway_id := c4Create.pathway_id,
                module_id := c4Create.module_id,
                time_spent_minutes := c4Create.time_spent_minutes,
                approval_status := "pending" } ∧
    get_user_progress (mark_module_complete c4Db 5 1 c4Create).1 1
        c4Create.pathway_id
        = some { c4Up with
            completed_modules := c4Up.completed_modules + 1,
            progress_percentage :=
              some (progressPct (c4Up.completed_modules + 1)
                c4Pathway.total_modules),
            total_time_spent_minutes :=
              c4Up.total_time_spent_minutes + c4Create.time_spent_minutes,
            completed_at :=
              if progressPct (c4Up.completed_modules + 1) c4Pathway.total_modules
                  = 100
              then some 5 else c4Up.completed_at } ∧
    mark_module_complete (mark_module_complete c4Db 5 1 c4Create).1 6 1 c4Create
        = ((mark_module_complete c4Db 5 1 c4Create).1,
           .ok { user_id := 1, pathway_id := c4Create.pathway_id,
                 module_id := c4Create.module_id,
                 time_spent_minutes := c4Create.time_spent_minutes,
                 approval_status := "pending" }) :=
  C4_mark_module_pct c4Db 5 6 1 c4Create c4Pathway c4Up (by rfl) (by rfl)
    (by rfl) (by decide) (by decide)

/-- The invariant only depends on the `user_progress` table. -/
theorem PctInv_congr {db1 db2 : Db}
    (h : db1.user_progress = db2.user_progress) (hinv : PctInv db2) :
    PctInv db1 := by
  intro p hp
  exact hinv p (h ▸ hp)

/-- The keyed `UserProgress` update preserves the invariant when the new
row satisfies the bounds. -/
theorem PctInv_set {db : Db} (uid : Nat) (pid : String) (row : UserProgress)
    (hdb : PctInv db)
    (hrow : ∀ v : Int, row.progress_percentage = some v → 0 ≤ v ∧ v ≤ 100) :
    PctInv (setUserProgress db uid pid row) := by
  intro q hq
  simp only [setUserProgress] at hq
  obtain ⟨q0, hq0, hqe⟩ := List.mem_map.mp hq
  by_cases hc : q0.user_id = uid ∧ q0.pathway_id = pid
  · rw [if_pos hc] at hqe
    rw [← hqe]
    exact hrow
  · rw [if_neg hc] at hqe
    rw [← hqe]
    exact hdb q0 hq0

/-- The commit tail of `mark_module_complete` preserves the invariant:
either the check-constraint test passes (and the written row satisfies
it) or the transaction rolls back to the last committed state. -/
theorem markCommit_inv (base pendingBase : Db) (today : Int) (uid : Nat)
    (c : ModuleCompletionCreate) (comp : ModuleCompletion) (up : UserProgress)
    (hbase : PctInv base)
    (hpend : pendingBase.user_progress = base.user_progress) :
    PctInv (markCommit base pendingBase today uid c comp up).1 := by
  have hpendInv : PctInv pendingBase := PctInv_congr hpend hbase
  unfold markCommit
  cases hp : get_pathway_by_id base c.pathway_id with
  | none =>
    refine PctInv_congr ?_ hpendInv
    rw [(check_only_user_achievements _ uid).1, (streak_only_streaks _ today uid).1]
  | some p =>
    by_cases ht : p.total_modules = 0
    · simp only [if_pos ht]
      exact hbase
    · simp only [if_neg ht]
      by_cases hb : 0 ≤ progressPct (up.completed_modules + 1) p.total_modules
          ∧ progressPct (up.completed_modules + 1) p.total_modules ≤ 100
      · simp only [if_pos hb]
        refine PctInv_congr ?_ (PctInv_set uid c.pathway_id
          { up with
            completed_modules := up.completed_modules + 1,
            progress_percentage :=
              some (progressPct (up.completed_modules + 1) p.total_modules),
            total_time_spent_minutes :=
              up.total_time_spent_minutes + c.time_spent_minutes,
            completed_at :=
              if progressPct (up.completed_modules + 1) p.total_modules = 100
              then some today else up.completed_at } hpendInv ?_)
        · rw [(check_only_user_achievements _ uid).1,
              (streak_only_streaks _ today uid).1]
        · intro v hv
          injection hv with hv2
          subst hv2
          exact hb
      · simp only [if_neg hb]
        exact hbase

/-- `create_user_progress` preserves the invariant (a fresh row starts at
0%). -/
theorem create_user_progress_inv (db : Db) (today : Int) (uid : Nat)
    (pid : String) (hdb : PctInv db) :
    PctInv (create_user_progress db today uid pid).1 := by
  unfold create_user_progress
  cases hq : get_user_progress db uid pid with
  | some existing => exact hdb
  | none =>
    refine PctInv_congr ((streak_only_streaks _ today uid).1) ?_
    intro q hq
    rcases List.mem_append.mp hq with h | h
    · exact hdb q h
    · rcases List.mem_singleton.mp h with rfl
      intro v hv
      injection hv with hv2
      subst hv2
      exact ⟨le_refl 0, by norm_num⟩

/-- `update_user_progress` preserves the invariant: the percentage either
comes from the pydantic-validated body, is an explicit SQL NULL, or is
left unchanged. -/
theorem update_user_progress_inv (db : Db) (today : Int) (uid : Nat)
    (pid : String) (upd : UserProgressUpdate) (hdb : PctInv db)
    (hvalid : upd.valid = true) :
    PctInv (update_user_progress db today uid pid upd).1 := by
  unfold update_user_progress
  cases hq : get_user_progress db uid pid with
  | none => exact hdb
  | some prow =>
    have hmem : prow ∈ db.user_progress := List.mem_of_find?_eq_some hq
    have hpct : ∀ v : Int, (applyUpdate prow upd).progress_percentage = some v →
        0 ≤ v ∧ v ≤ 100 := by
      intro v hv
      cases hu : upd.progress_percentage with
      | none =>
        simp only [applyUpdate, hu] at hv
        exact hdb prow hmem v hv
      | some w =>
        simp only [applyUpdate, hu] at hv
        cases w with
        | none => exact Option.noConfusion hv
        | some z =>
          injection hv with hv2
          subst hv2
          have hval := hvalid
          unfold UserProgressUpdate.valid at hval
          simp only [hu] at hval
          exact of_decide_eq_true hval
    by_cases hfull : (applyUpdate prow upd).progress_percentage = some 100
        ∧ (applyUpdate prow upd).completed_at = none
    · simp only [if_pos hfull]
      refine PctInv_congr ((check_only_user_achievements _ uid).1) ?_
      refine PctInv_set uid pid _ hdb ?_
      intro v hv
      exact hpct v hv
    · simp only [if_neg hfull]
      exact PctInv_set uid pid _ hdb hpct

/-- The CRUD `mark_module_complete` preserves the invariant. -/
theorem mark_module_complete_inv (db : Db) (today : Int) (uid : Nat)
    (c : ModuleCompletionCreate) (hdb : PctInv db) :
    PctInv (mark_module_complete db today uid c).1 := by
  unfold mark_module_complete
  cases hc : get_module_completion db uid c.module_id with
  | some existing => exact hdb
  | none =>
    cases hq : get_user_progress db uid c.pathway_id with
    | some up =>
      exact markCommit_inv db _ today uid c _ up hdb rfl
    | none =>
      have hdb1 : PctInv (update_learning_streak
          { db with
            module_completions := db.module_completions ++
              [{ user_id := uid, pathway_id := c.pathway_id,
                 module_id := c.module_id,
                 time_spent_minutes := c.time_spent_minutes,
                 approval_status := "pending" }],
            user_progress := db.user_progress ++
              [{ user_id := uid, pathway_id := c.pathway_id,
                 current_module_id := none, progress_percentage := some 0,
                 completed_modules := 0, total_time_spent_minutes := 0,
                 completed_at := none }] } today uid).1 := by
        refine PctInv_congr ((streak_only_streaks _ today uid).1) ?_
        intro q hq
        rcases List.mem_append.mp hq with h | h
        · exact hdb q h
        · rcases List.mem_singleton.mp h with rfl
          intro v hv
          injection hv with hv2
          subst hv2
          exact ⟨le_refl 0, by norm_num⟩
      exact markCommit_inv _ _ today uid c _ _ hdb1 rfl

/-- The `mark_module_complete` route handler preserves the invariant (the
validation failures leave the state untouched). -/
theorem mark_endpoint_inv (db : Db) (today : Int) (uid : Nat)
    (c : ModuleCompletionCreate) (hdb : PctInv db) :
    PctInv (mark_module_complete_endpoint db today uid c).1 := by
  unfold mark_module_complete_endpoint
  cases hm : get_module_by_id db c.module_id with
  | none => exact hdb
  | some m =>
    cases hp : get_pathway_by_id db c.pathway_id with
    | none => exact hdb
    | some p =>
      by_cases hres : (get_resources_by_module db c.module_id).isEmpty
      · simp only [if_pos hres]
        exact mark_module_complete_inv db today uid c hdb
      · simp only [if_neg hres]
        split
        · exact hdb
        · split
          · exact hdb
          · exact mark_module_complete_inv db today uid c hdb

/-- Every single progress operation preserves the invariant. -/
theorem applyOp_inv (db : Db) (op : ProgressOp) (hdb : PctInv db) :
    PctInv (applyOp db op) := by
  cases op with
  | create today uid pid => exact create_user_progress_inv db today uid pid hdb
  | update today uid pid upd =>
    show PctInv (if upd.valid = true
      then (update_user_progress db today uid pid upd).1 else db)
    by_cases hv : upd.valid = true
    · rw [if_pos hv]
      exact update_user_progress_inv db today uid pid upd hdb hv
    · rw [if_neg hv]
      exact hdb
  | mark today uid c => exact mark_endpoint_inv db today uid c hdb

/-- **C3 (counterexample)**: the update body
`{"progress_percentage": null}` refutes the claimed invariant
`0 ≤ progress_percentage ≤ 100`: the explicit null passes pydantic
validation (`None` skips the `ge`/`le` bounds), survives
`model_dump(exclude_unset=True)` because the field was set, and is
written to the nullable column, which the check constraint lets through —
so a reachable committed state holds a progress row whose percentage is
no integer at all. -/
theorem C3_counterexample :
    nullPctUpdate.valid = true ∧
    ∃ p ∈ ([ProgressOp.update 0 1 "p" nullPctUpdate].foldl
        applyOp c4Db).user_progress,
      p.progress_percentage = none := by
  constructor
  · rfl
  · decide

/-- **C3 (amended)**: along any sequence of progress operations (start
pathway, update progress, mark module complete), every reachable
committed state keeps every non-NULL `progress_percentage` in
`[0, 100]`: the pydantic bound guards integer-valued direct updates, an
explicit null stores SQL NULL (which the check constraint passes), and
the check constraint guards the recomputation on module completion. -/
theorem C3_pct_invariant (ops : List ProgressOp) (db : Db) (hdb : PctInv db) :
    PctInv (ops.foldl applyOp db) := by
  induction ops generalizing db with
  | nil => exact hdb
  | cons op rest ih =>
    simp only [List.foldl_cons]
    exact ih (applyOp db op) (applyOp_inv db op hdb)

/-- Witness for C3: a concrete run of start-pathway followed by a module
completion. -/
theorem C3_pct_invariant_witness :
    PctInv ([ProgressOp.create 0 1 "p",
             ProgressOp.mark 1 1 c4Create].foldl applyOp c4Db) :=
  C3_pct_invariant _ c4Db (by
    intro p hp v hv
    rw [List.mem_singleton.mp hp] at hv
    injection hv with hv2
    omega)

/-- When resource-completion rows are unique per resource, a property
holds of some row with the given resource key iff it holds of the row the
code's dictionary lookup finds. -/
theorem exists_key_iff_find? {l : List ResourceCompletion} {rid : String}
    (hnodup : (l.map ResourceCompletion.resource_id).Nodup)
    (P : ResourceCompletion → Prop) :
    (∃ cm ∈ l, cm.resource_id = rid ∧ P cm) ↔
      ∃ cm, l.find? (fun x => x.resource_id == rid) = some cm ∧ P cm := by
  induction l with
  | nil => simp
  | cons a t ih =>
    simp only [List.map_cons, List.nodup_cons] at hnodup
    by_cases ha : a.resource_id = rid
    · have hb : (a.resource_id == rid) = true := beq_iff_eq.mpr ha
      constructor
      · rintro ⟨cm, hcm, hkey, hP⟩
        rcases List.mem_cons.mp hcm with rfl | hmem
        · exact ⟨cm, by simp [List.find?, hb], hP⟩
        · exact absurd (ha ▸ hkey ▸
            List.mem_map_of_mem ResourceCompletion.resource_id hmem) hnodup.1
      · rintro ⟨cm, hfind, hP⟩
        have hcm : cm = a := by
          have := hfind
          simp only [List.find?, hb] at this
          exact (Option.some.inj this).symm
        exact ⟨a, List.mem_cons_self _ _, ha, hcm ▸ hP⟩
    · have hb : (a.resource_id == rid) = false := beq_eq_false_iff_ne.mpr ha
      have hstep : (a :: t).find? (fun x => x.resource_id == rid)
          = t.find? (fun x => x.resource_id == rid) := by
        simp [List.find?, hb]
      constructor
      · rintro ⟨cm, hcm, hkey, hP⟩
        rcases List.mem_cons.mp hcm with rfl | hmem
        · exact absurd hkey ha
        · rw [hstep]
          exact (ih hnodup.2).mp ⟨cm, hmem, hkey, hP⟩
      · rintro ⟨cm, hfind, hP⟩
        rw [hstep] at hfind
        obtain ⟨cm', hmem, hkey, hP'⟩ := (ih hnodup.2).mpr ⟨cm, hfind, hP⟩
        exact ⟨cm', List.mem_cons_of_mem _ hmem, hkey, hP'⟩

/-- With unique resource keys, two completion rows with the same key are
the same row. -/
theorem key_unique {l : List ResourceCompletion} {rid : String}
    (hnodup : (l.map ResourceCompletion.resource_id).Nodup)
    {cm1 cm2 : ResourceCompletion} (h1 : cm1 ∈ l) (h2 : cm2 ∈ l)
    (hk1 : cm1.resource_id = rid) (hk2 : cm2.resource_id = rid) : cm1 = cm2 := by
  obtain ⟨d1, hf1, he1⟩ := (exists_key_iff_find? hnodup (· = cm1)).mp ⟨cm1, h1, hk1, rfl⟩
  obtain ⟨d2, hf2, he2⟩ := (exists_key_iff_find? hnodup (· = cm2)).mp ⟨cm2, h2, hk2, rfl⟩
  rw [← he1, ← he2]
  exact Option.some.inj (hf1.symm.trans hf2)

/-- A filter produces a nonempty list iff some element satisfies the
predicate. -/
theorem filterNeNil {α : Type} (p : α → Bool) (l : List α) :
    l.filter p ≠ [] ↔ ∃ a ∈ l, p a = true := by
  rw [Ne, List.filter_eq_nil_iff]
  push_neg
  simp

/-- The endpoint's resource checks fire exactly when some resource lacks
an accepted completion or some upload-requiring resource has no
submission (given unique completion rows per resource). -/
theorem reject_iff (resources : List Resource)
    (completions : List ResourceCompletion)
    (hnodup : (completions.map ResourceCompletion.resource_id).Nodup) :
    ((resources.filter (fun r =>
        match completions.find? (fun cm => cm.resource_id == r.id) with
        | none => true
        | some cm => ¬ goodStatus cm.status)) ≠ []
      ∨ (resources.filter (fun r =>
        match completions.find? (fun cm => cm.resource_id == r.id) with
        | none => false
        | some cm => goodStatus cm.status && r.requires_upload
            && cm.submission_count == 0)) ≠ [])
    ↔ ((∃ r ∈ resources, ¬ ∃ cm ∈ completions,
          cm.resource_id = r.id ∧ goodStatus cm.status = true)
      ∨ (∃ r ∈ resources, r.requires_upload = true ∧
          ∀ cm ∈ completions, cm.resource_id = r.id →
            cm.submission_count = 0)) := by
  rw [filterNeNil, filterNeNil]
  constructor
  · rintro (⟨r, hr, hpred⟩ | ⟨r, hr, hpred⟩)
    · left
      refine ⟨r, hr, ?_⟩
      rw [exists_key_iff_find? hnodup (fun cm => goodStatus cm.status = true)]
      cases hf : completions.find? (fun cm => cm.resource_id == r.id) with
      | none =>
        rintro ⟨cm, hcm, _⟩
        cases hcm
      | some cm =>
        rw [hf] at hpred
        simp only [decide_eq_true_eq] at hpred
        rintro ⟨cm', hcm', hgood⟩
        cases Option.some.inj hcm'
        exact hpred hgood
    · cases hf : completions.find? (fun cm => cm.resource_id == r.id) with
      | none =>
        rw [hf] at hpred
        cases hpred
      | some cm =>
        rw [hf] at hpred
        simp only [Bool.and_eq_true, beq_iff_eq] at hpred
        obtain ⟨⟨hgood, hreq⟩, hcount⟩ := hpred
        right
        refine ⟨r, hr, hreq, ?_⟩
        intro cm' hcm' hkey'
        have hmemf : cm ∈ completions := List.mem_of_find?_eq_some hf
        have hkb := List.find?_some hf
        have hkeyf : cm.resource_id = r.id := beq_iff_eq.mp hkb
        rw [key_unique hnodup hcm' hmemf hkey' hkeyf]
        exact hcount
  · rintro (⟨r, hr, hA⟩ | ⟨r, hr, hreq, hB⟩)
    · left
      refine ⟨r, hr, ?_⟩
      cases hf : completions.find? (fun cm => cm.resource_id == r.id) with
      | none => rfl
      | some cm =>
        simp only [decide_eq_true_eq]
        intro hgood
        have hkb := List.find?_some hf
        exact hA ⟨cm, List.mem_of_find?_eq_some hf, beq_iff_eq.mp hkb, hgood⟩
    · cases hf : completions.find? (fun cm => cm.resource_id == r.id) with
      | none =>
        left
        exact ⟨r, hr, by rw [hf]⟩
      | some cm =>
        have hmemf : cm ∈ completions := List.mem_of_find?_eq_some hf
        have hkb := List.find?_some hf
        have hkeyf : cm.resource_id = r.id := beq_iff_eq.mp hkb
        by_cases hgood : goodStatus cm.status = true
        · right
          refine ⟨r, hr, ?_⟩
          rw [hf]
          simp [hgood, hreq, hB cm hmemf hkeyf]
        · left
          refine ⟨r, hr, ?_⟩
          rw [hf]
          simp [hgood]

/-- **C5**: when the module has at least one resource, the completion
endpoint returns HTTP 400 and leaves the state untouched exactly when
some resource lacks a completion with status in
{completed, submitted, reviewed} or some upload-requiring resource has a
zero `submission_count`; when every resource passes both checks the
request reaches the CRUD layer and the fresh completion is created with
`approval_status = 'pending'`. -/
theorem C5_resource_gate (db : Db) (today : Int) (uid : Nat)
    (c : ModuleCompletionCreate) (m : Module) (p : Pathway) (up : UserProgress)
    (hm : get_module_by_id db c.module_id = some m)
    (hp : get_pathway_by_id db c.pathway_id = some p)
    (hres : (get_resources_by_module db c.module_id).isEmpty = false)
    (hnodup : ((get_user_completions_for_module db uid c.module_id).map
        ResourceCompletion.resource_id).Nodup)
    (hno : get_module_completion db uid c.module_id = none)
    (hup : get_user_progress db uid c.pathway_id = some up)
    (hc0 : 0 ≤ up.completed_modules)
    (hle : up.completed_modules + 1 ≤ p.total_modules) :
    (((∃ r ∈ get_resources_by_module db c.module_id,
        ¬ ∃ cm ∈ get_user_completions_for_module db uid c.module_id,
            cm.resource_id = r.id ∧ goodStatus cm.status = true)
      ∨ (∃ r ∈ get_resources_by_module db c.module_id,
          r.requires_upload = true ∧
          ∀ cm ∈ get_user_completions_for_module db uid c.module_id,
              cm.resource_id = r.id → cm.submission_count = 0)) →
      mark_module_complete_endpoint db today uid c = (db, .error 400)) ∧
    (¬ ((∃ r ∈ get_resources_by_module db c.module_id,
        ¬ ∃ cm ∈ get_user_completions_for_module db uid c.module_id,
            cm.resource_id = r.id ∧ goodStatus cm.status = true)
      ∨ (∃ r ∈ get_resources_by_module db c.module_id,
          r.requires_upload = true ∧
          ∀ cm ∈ get_user_completions_for_module db uid c.module_id,
              cm.resource_id = r.id → cm.submission_count = 0)) →
      mark_module_complete_endpoint db today uid c
          = mark_module_complete db today uid c ∧
      (mark_module_complete_endpoint db today uid c).2
          = .ok { user_id := uid, pathway_id := c.pathway_id,
                  module_id := c.module_id,
                  time_spent_minutes := c.time_spent_minutes,
                  approval_status := "pending" }) := by
  have hend : mark_module_complete_endpoint db today uid c
      = (if ¬ ((get_resources_by_module db c.module_id).filter (fun r =>
            match (get_user_completions_for_module db uid c.module_id).find?
                (fun cm => cm.resource_id == r.id) with
            | none => true
            | some cm => ¬ goodStatus cm.status)).isEmpty = true
         then (db, .error 400)
         else if ¬ ((get_resources_by_module db c.module_id).filter (fun r =>
            match (get_user_completions_for_module db uid c.module_id).find?
                (fun cm => cm.resource_id == r.id) with
            | none => false
            | some cm => goodStatus cm.status && r.requires_upload
                && cm.submission_count == 0)).isEmpty = true
         then (db, .error 400)
         else mark_module_complete db today uid c) := by
    unfold mark_module_complete_endpoint
    simp only [hm, hp]
    rw [hres]
    simp
  constructor
  · intro hcond
    rcases (reject_iff _ _ hnodup).mpr hcond with hne | hne
    · rw [hend, if_pos (fun hyp => hne (List.isEmpty_iff.mp hyp))]
    · rw [hend]
      by_cases hinc : ((get_resources_by_module db c.module_id).filter (fun r =>
            match (get_user_completions_for_module db uid c.module_id).find?
                (fun cm => cm.resource_id == r.id) with
            | none => true
            | some cm => ¬ goodStatus cm.status)) = []
      · rw [if_neg (fun hyp => hyp (List.isEmpty_iff.mpr hinc)),
            if_pos (fun hyp => hne (List.isEmpty_iff.mp hyp))]
      · rw [if_pos (fun hyp => hinc (List.isEmpty_iff.mp hyp))]
  · intro hcond
    have hboth := not_or.mp (fun hcode => hcond ((reject_iff _ _ hnodup).mp hcode))
    have h1 := not_not.mp hboth.1
    have h2 := not_not.mp hboth.2
    have hpass : mark_module_complete_endpoint db today uid c
        = mark_module_complete db today uid c := by
      rw [hend, if_neg (fun hyp => hyp (List.isEmpty_iff.mpr h1)),
          if_neg (fun hyp => hyp (List.isEmpty_iff.mpr h2))]
    refine ⟨hpass, ?_⟩
    rw [hpass]
    have ht0 : ¬ (p.total_modules = 0) := by omega
    have hbounds := progressPct_bounds
      (show (0:Int) ≤ up.completed_modules + 1 by omega)
      (show (0:Int) < p.total_modules by omega) hle
    unfold mark_module_complete
    rw [hno, hup]
    unfold markCommit
    rw [hp]
    simp only [if_neg ht0, if_pos hbounds]

/-- Witness for C5: a concrete module whose single upload resource has a
submitted completion, so the request passes validation. -/
theorem C5_resource_gate_witness :
    (((∃ r ∈ get_resources_by_module c5Db c4Create.module_id,
        ¬ ∃ cm ∈ get_user_completions_for_module c5Db 1 c4Create.module_id,
            cm.resource_id = r.id ∧ goodStatus cm.status = true)
      ∨ (∃ r ∈ get_resources_by_module c5Db c4Create.module_id,
          r.requires_upload = true ∧
          ∀ cm ∈ get_user_completions_for_module c5Db 1 c4Create.module_id,
              cm.resource_id = r.id → cm.submission_count = 0)) →
      mark_module_complete_endpoint c5Db 3 1 c4Create = (c5Db, .error 400)) ∧
    (¬ ((∃ r ∈ get_resources_by_module c5Db c4Create.module_id,
        ¬ ∃ cm ∈ get_user_completions_for_module c5Db 1 c4Create.module_id,
            cm.resource_id = r.id ∧ goodStatus cm.status = true)
      ∨ (∃ r ∈ get_resources_by_module c5Db c4Create.module_id,
          r.requires_upload = true ∧
          ∀ cm ∈ get_user_completions_for_module c5Db 1 c4Create.module_id,
              cm.resource_id = r.id → cm.submission_count = 0)) →
      mark_module_complete_endpoint c5Db 3 1 c4Create
          = mark_module_complete c5Db 3 1 c4Create ∧
      (mark_module_complete_endpoint c5Db 3 1 c4Create).2
          = .ok { user_id := 1, pathway_id := c4Create.pathway_id,
                  module_id := c4Create.module_id,
                  time_spent_minutes := c4Create.time_spent_minutes,
                  approval_status := "pending" }) :=
  C5_resource_gate c5Db 3 1 c4Create c5Module c4Pathway c4Up (by rfl) (by rfl)
    (by rfl) (by decide) (by rfl) (by rfl) (by decide) (by decide)

/-- Awarding preserves existing `UserAchievement` rows. -/
theorem award_mem_mono {db : Db} {uid : Nat} {aid : String}
    {row : UserAchievement} (h : row ∈ db.user_achievements) :
    row ∈ (award_achievement db uid aid).1.user_achievements := by
  unfold award_achievement
  split
  · exact h
  · exact List.mem_append_left _ h

/-- After `award_achievement`, some row for the pair is present. -/
theorem award_mem_key (db : Db) (uid : Nat) (aid : String) :
    ∃ row ∈ (award_achievement db uid aid).1.user_achievements,
      row.user_id = uid ∧ row.achievement_id = aid := by
  unfold award_achievement
  split
  · next hany =>
    obtain ⟨r, hr, hkeys⟩ := List.any_eq_true.mp hany
    simp only [Bool.and_eq_true, beq_iff_eq] at hkeys
    exact ⟨r, hr, hkeys.1, hkeys.2⟩
  · exact ⟨_, List.mem_append_right _ (List.mem_singleton_self _), rfl, rfl⟩

/-- `award_achievement` on an already-earned pair returns `none` and
leaves the database unchanged. -/
theorem award_noop {db : Db} {uid : Nat} {aid : String}
    (h : ∃ row ∈ db.user_achievements,
      row.user_id = uid ∧ row.achievement_id = aid) :
    award_achievement db uid aid = (db, none) := by
  obtain ⟨row, hmem, h1, h2⟩ := h
  unfold award_achievement
  rw [if_pos]
  exact List.any_eq_true.mpr ⟨row, hmem, by simp [h1, h2]⟩

/-- Rows survive the whole achievement-award fold. -/
theorem foldl_award_mono (uid : Nat) (P : Achievement → Bool) :
    ∀ (l : List Achievement) (acc : Db) (row : UserAchievement),
      row ∈ acc.user_achievements →
      row ∈ (l.foldl (fun acc a =>
        if P a then (award_achievement acc uid a.id).1 else acc)
        acc).user_achievements := by
  intro l
  induction l with
  | nil => intro acc row h; exact h
  | cons a t ih =>
    intro acc row h
    simp only [List.foldl_cons]
    by_cases hP : P a = true
    · rw [if_pos hP]
      exact ih _ row (award_mem_mono h)
    · rw [if_neg hP]
      exact ih _ row h

/-- Every row after the fold was there before or is a fresh (user,
achievement) row for some passing achievement. -/
theorem foldl_award_spec (uid : Nat) (P : Achievement → Bool) :
    ∀ (l : List Achievement) (acc : Db) (row : UserAchievement),
      row ∈ (l.foldl (fun acc a =>
        if P a then (award_achievement acc uid a.id).1 else acc)
        acc).user_achievements →
      row ∈ acc.user_achievements ∨
        ∃ a ∈ l, P a = true ∧
          row = { user_id := uid, achievement_id := a.id } := by
  intro l
  induction l with
  | nil => intro acc row h; exact Or.inl h
  | cons a t ih =>
    intro acc row h
    simp only [List.foldl_cons] at h
    by_cases hP : P a = true
    · rw [if_pos hP] at h
      rcases ih _ row h with hmem | ⟨a', ha', hPa', heq⟩
      · revert hmem
        unfold award_achievement
        split
        · intro hmem
          exact Or.inl hmem
        · intro hmem
          rcases List.mem_append.mp hmem with hl | hr
          · exact Or.inl hl
          · rcases List.mem_singleton.mp hr with rfl
            exact Or.inr ⟨a, List.mem_cons_self _ _, hP, rfl⟩
      · exact Or.inr ⟨a', List.mem_cons_of_mem _ ha', hPa', heq⟩
    · rw [if_neg hP] at h
      rcases ih _ row h with hmem | ⟨a', ha', hPa', heq⟩
      · exact Or.inl hmem
      · exact Or.inr ⟨a', List.mem_cons_of_mem _ ha', hPa', heq⟩

/-- Every achievement whose test passes has a row after the fold. -/
theorem foldl_award_inserts (uid : Nat) (P : Achievement → Bool) :
    ∀ (l : List Achievement) (acc : Db) (a : Achievement),
      a ∈ l → P a = true →
      ∃ row ∈ (l.foldl (fun acc a =>
        if P a then (award_achievement acc uid a.id).1 else acc)
        acc).user_achievements,
        row.user_id = uid ∧ row.achievement_id = a.id := by
  intro l
  induction l with
  | nil => intro acc a ha; cases ha
  | cons b t ih =>
    intro acc a ha hP
    simp only [List.foldl_cons]
    rcases List.mem_cons.mp ha with rfl | hmem
    · rw [if_pos hP]
      obtain ⟨row, hrow, hk⟩ := award_mem_key acc uid a.id
      exact ⟨row, foldl_award_mono uid P t _ row hrow, hk⟩
    · by_cases hPb : P b = true
      · rw [if_pos hPb]
        exact ih _ a hmem hP
      · rw [if_neg hPb]
        exact ih _ a hmem hP

/-- The fold is a no-op when every passing achievement already has its
row. -/
theorem foldl_award_noop (uid : Nat) (P : Achievement → Bool) :
    ∀ (l : List Achievement) (acc : Db),
      (∀ a ∈ l, P a = true →
        ∃ row ∈ acc.user_achievements,
          row.user_id = uid ∧ row.achievement_id = a.id) →
      l.foldl (fun acc a =>
        if P a then (award_achievement acc uid a.id).1 else acc) acc = acc := by
  intro l
  induction l with
  | nil => intro acc _; rfl
  | cons a t ih =>
    intro acc hall
    simp only [List.foldl_cons]
    by_cases hP : P a = true
    · rw [if_pos hP, award_noop (hall a (List.mem_cons_self _ _) hP)]
      exact ih acc (fun a' ha' => hall a' (List.mem_cons_of_mem _ ha'))
    · rw [if_neg hP]
      exact ih acc (fun a' ha' => hall a' (List.mem_cons_of_mem _ ha'))

/-- Counterexample to **C7** as stated: for the zero-threshold
`streak_days` achievement and a user with no streak row, the user's
current-streak statistic (0 for a missing row) meets the threshold and the
pair is unearned, yet `check_and_award_achievements` inserts nothing,
because the code's `streak and streak.current_streak >= value` test is
falsy when no streak row exists. -/
theorem C7_counterexample :
    c7Achievement ∈ c7Db.achievements ∧
    c7Achievement.requirement_type = "streak_days" ∧
    c7Achievement.requirement_value
        ≤ ((get_learning_streak c7Db 7).map LearningStreak.current_streak).getD 0 ∧
    (¬ ∃ row ∈ c7Db.user_achievements,
        row.user_id = 7 ∧ row.achievement_id = c7Achievement.id) ∧
    (¬ ∃ row ∈ (check_and_award_achievements c7Db 7).user_achievements,
        row.user_id = 7 ∧ row.achievement_id = c7Achievement.id) := by
  refine ⟨by decide, rfl, by decide, by decide, by decide⟩

/-- **C7 (amended)**: `check_and_award_achievements` inserts a
`UserAchievement` row exactly when the achievement's threshold test
passes on the user's statistics — with the qualification, forced by the
counterexample, that a `streak_days` achievement requires an existing
streak row whose `current_streak` meets the threshold (a user with no
streak row never qualifies); running the check twice equals running it
once, and `award_achievement` on an earned pair returns `none` and
changes nothing. -/
theorem C7_award_exactly_on_thresholds (db : Db) (uid : Nat)
    (hnodupA : (db.achievements.map Achievement.id).Nodup) :
    (∀ a ∈ db.achievements,
      ((∃ row ∈ (check_and_award_achievements db uid).user_achievements,
          row.user_id = uid ∧ row.achievement_id = a.id) ↔
       ((∃ row ∈ db.user_achievements,
           row.user_id = uid ∧ row.achievement_id = a.id) ∨
        should_award
          (((db.module_completions.filter
              (fun cm => cm.user_id == uid)).length : Int))
          ((((db.user_progress.filter (fun p => p.user_id == uid)).filter
              (fun p => p.progress_percentage == some 100)).length : Int))
          (((db.user_progress.filter (fun p => p.user_id == uid)).length : Int))
          (((db.user_progress.filter (fun p => p.user_id == uid)).map
              (fun p => p.total_time_spent_minutes)).sum)
          (get_learning_streak db uid) a = true))) ∧
    check_and_award_achievements (check_and_award_achievements db uid) uid
        = check_and_award_achievements db uid ∧
    (∀ aid, (∃ row ∈ db.user_achievements,
        row.user_id = uid ∧ row.achievement_id = aid) →
      award_achievement db uid aid = (db, none)) := by
  refine ⟨?_, ?_, fun aid h => award_noop h⟩
  · intro a ha
    constructor
    · intro hafter
      obtain ⟨row, hrow, hk1, hk2⟩ := hafter
      unfold check_and_award_achievements at hrow
      rcases foldl_award_spec uid _ db.achievements db row hrow with
        hmem | ⟨a', ha', hPa', heq⟩
      · exact Or.inl ⟨row, hmem, hk1, hk2⟩
      · have hid : a'.id = a.id := by rw [← hk2, heq]
        have : a' = a := List.inj_on_of_nodup_map hnodupA ha' ha hid
        exact Or.inr (this ▸ hPa')
    · rintro (⟨row, hrow, hk⟩ | hshould)
      · refine ⟨row, ?_, hk⟩
        unfold check_and_award_achievements
        exact foldl_award_mono uid _ db.achievements db row hrow
      · unfold check_and_award_achievements
        exact foldl_award_inserts uid _ db.achievements db a ha hshould
  · have hc := check_only_user_achievements db uid
    have hstreak : get_learning_streak (check_and_award_achievements db uid) uid
        = get_learning_streak db uid := by
      unfold get_learning_streak
      rw [hc.2.2.2.1]
    have hall : ∀ a ∈ db.achievements,
        should_award
          (((db.module_completions.filter
              (fun cm => cm.user_id == uid)).length : Int))
          ((((db.user_progress.filter (fun p => p.user_id == uid)).filter
              (fun p => p.progress_percentage == some 100)).length : Int))
          (((db.user_progress.filter (fun p => p.user_id == uid)).length : Int))
          (((db.user_progress.filter (fun p => p.user_id == uid)).map
              (fun p => p.total_time_spent_minutes)).sum)
          (get_learning_streak db uid) a = true →
        ∃ row ∈ (check_and_award_achievements db uid).user_achievements,
          row.user_id = uid ∧ row.achievement_id = a.id := by
      intro a ha hP
      unfold check_and_award_achievements
      exact foldl_award_inserts uid _ db.achievements db a ha hP
    set db1 := check_and_award_achievements db uid with hdb1
    unfold check_and_award_achievements
    rw [hc.1, hc.2.1, hc.2.2.2.2, hstreak]
    exact foldl_award_noop uid _ db.achievements _ hall

/-- Witness for the amended C7 at the concrete one-achievement catalog. -/
theorem C7_award_exactly_on_thresholds_witness :
    (∀ a ∈ c7Db.achievements,
      ((∃ row ∈ (check_and_award_achievements c7Db 7).user_achievements,
          row.user_id = 7 ∧ row.achievement_id = a.id) ↔
       ((∃ row ∈ c7Db.user_achievements,
           row.user_id = 7 ∧ row.achievement_id = a.id) ∨
        should_award
          (((c7Db.module_completions.filter
              (fun cm => cm.user_id == 7)).length : Int))
          ((((c7Db.user_progress.filter (fun p => p.user_id == 7)).filter
              (fun p => p.progress_percentage == some 100)).length : Int))
          (((c7Db.user_progress.filter (fun p => p.user_id == 7)).length : Int))
          (((c7Db.user_progress.filter (fun p => p.user_id == 7)).map
              (fun p => p.total_time_spent_minutes)).sum)
          (get_learning_streak c7Db 7) a = true))) ∧
    check_and_award_achievements (check_and_award_achievements c7Db 7) 7
        = check_and_award_achievements c7Db 7 ∧
    (∀ aid, (∃ row ∈ c7Db.user_achievements,
        row.user_id = 7 ∧ row.achievement_id = aid) →
      award_achievement c7Db 7 aid = (c7Db, none)) :=
  C7_award_exactly_on_thresholds c7Db 7 (by decide)

end Progress

namespace Resources

open Progress

/-- **C8**: `validate_file_upload` accepts exactly when the size is at
most `max_file_size_mb` mebibytes, a MIME type can be guessed from the
filename, and — when the accepted-types list is non-empty — the guessed
type matches some entry exactly or by category wildcard; a rejected
upload makes the endpoint return HTTP 400 with no submission row created
and no object stored. -/
theorem C8_upload_validation (guess : String → Option String)
    (db : Db) (uid : Nat) (uidStr rid ts : String) (sid : Nat)
    (filename : String) (file_size : Int) (content_type : String)
    (r : Resource) (hr : get_resource_by_id db rid = some r)
    (hreq : r.requires_upload = true) :
    ((validate_file_upload guess filename file_size r.accepted_file_types
        r.max_file_size_mb).1 = true ↔
      (file_size ≤ r.max_file_size_mb * 1024 * 1024 ∧
       ∃ m, guess filename = some m ∧
         ∀ l, r.accepted_file_types = some l → l ≠ [] →
           ∃ t ∈ l, matchesEntry m t = true)) ∧
    ((validate_file_upload guess filename file_size r.accepted_file_types
        r.max_file_size_mb).1 = false →
      (upload_resource_file guess db uid uidStr rid ts sid filename file_size
        content_type).2 = .error 400 ∧
      (upload_resource_file guess db uid uidStr rid ts sid filename file_size
        content_type).1.submissions = db.submissions ∧
      (upload_resource_file guess db uid uidStr rid ts sid filename file_size
        content_type).1.gcs_objects = db.gcs_objects) := by
  constructor
  · by_cases hs : r.max_file_size_mb * 1024 * 1024 < file_size
    · have he : validate_file_upload guess filename file_size
          r.accepted_file_types r.max_file_size_mb
          = (false, some "File size exceeds maximum allowed size") := by
        unfold validate_file_upload
        rw [if_pos hs]
      rw [he]
      constructor
      · intro h
        exact Bool.noConfusion h
      · rintro ⟨hsize, _⟩
        omega
    · cases hg : guess filename with
      | none =>
        have he : validate_file_upload guess filename file_size
            r.accepted_file_types r.max_file_size_mb
            = (false, some "Could not determine file type") := by
          unfold validate_file_upload
          rw [if_neg hs, hg]
        rw [he]
        constructor
        · intro h
          exact Bool.noConfusion h
        · rintro ⟨_, m, hm, _⟩
          exact Option.noConfusion hm
      | some m =>
        cases hall : r.accepted_file_types with
        | none =>
          have he : validate_file_upload guess filename file_size
              none r.max_file_size_mb = (true, none) := by
            unfold validate_file_upload
            rw [if_neg hs, hg]
          rw [he]
          constructor
          · intro _
            refine ⟨by omega, m, rfl, ?_⟩
            intro l hl hne
            exact Option.noConfusion hl
          · intro _
            rfl
        | some l =>
          by_cases hle : l.isEmpty = true
          · have he : validate_file_upload guess filename file_size
                (some l) r.max_file_size_mb = (true, none) := by
              unfold validate_file_upload
              rw [if_neg hs, hg]
              simp [hle]
            rw [he]
            constructor
            · intro _
              refine ⟨by omega, m, rfl, ?_⟩
              intro lx hlx hne
              cases Option.some.inj hlx
              exact absurd (List.isEmpty_iff.mp hle) hne
            · intro _
              rfl
          · by_cases hany : l.any (fun t => matchesEntry m t) = true
            · have he : validate_file_upload guess filename file_size
                  (some l) r.max_file_size_mb = (true, none) := by
                unfold validate_file_upload
                rw [if_neg hs, hg]
                simp [hle, hany]
              rw [he]
              constructor
              · intro _
                refine ⟨by omega, m, rfl, ?_⟩
                intro lx hlx _
                cases Option.some.inj hlx
                exact List.any_eq_true.mp hany
              · intro _
                rfl
            · have he : validate_file_upload guess filename file_size
                  (some l) r.max_file_size_mb
                  = (false, some "File type is not allowed") := by
                unfold validate_file_upload
                rw [if_neg hs, hg]
                simp [hle, hany]
              rw [he]
              constructor
              · intro h
                exact Bool.noConfusion h
              · rintro ⟨_, mx, hmx, hmatch⟩
                cases Option.some.inj hmx
                have hne : l ≠ [] := fun hnil => hle (List.isEmpty_iff.mpr hnil)
                exact absurd (List.any_eq_true.mpr (hmatch l rfl hne)) hany
  · intro hfail
    unfold upload_resource_file
    rw [hr]
    simp only []
    rw [if_neg (fun hc => hc hreq)]
    rcases hveq : validate_file_upload guess filename file_size
        r.accepted_file_types r.max_file_size_mb with ⟨b, msg⟩
    have hb : b = false := by
      rw [hveq] at hfail
      exact hfail
    subst hb
    cases hgc : get_resource_completion db uid rid <;> exact ⟨rfl, rfl, rfl⟩

/-- Witness for C8 at a concrete oversized upload (100 MiB against a
10 MB limit). -/
theorem C8_upload_validation_witness :
    ((validate_file_upload (fun _ => some "image/png") "art.png" 104857600
        c8Resource.accepted_file_types c8Resource.max_file_size_mb).1 = true ↔
      ((104857600 : Int) ≤ c8Resource.max_file_size_mb * 1024 * 1024 ∧
       ∃ m, (fun _ => some "image/png" : String → Option String) "art.png"
            = some m ∧
         ∀ l, c8Resource.accepted_file_types = some l → l ≠ [] →
           ∃ t ∈ l, matchesEntry m t = true)) ∧
    ((validate_file_upload (fun _ => some "image/png") "art.png" 104857600
        c8Resource.accepted_file_types c8Resource.max_file_size_mb).1 = false →
      (upload_resource_file (fun _ => some "image/png") c8Db 1 "1" "r8" "t"
        7 "art.png" 104857600 "image/png").2 = .error 400 ∧
      (upload_resource_file (fun _ => some "image/png") c8Db 1 "1" "r8" "t"
        7 "art.png" 104857600 "image/png").1.submissions = c8Db.submissions ∧
      (upload_resource_file (fun _ => some "image/png") c8Db 1 "1" "r8" "t"
        7 "art.png" 104857600 "image/png").1.gcs_objects = c8Db.gcs_objects) :=
  C8_upload_validation (fun _ => some "image/png") c8Db 1 "1" "r8" "t" 7
    "art.png" 104857600 "image/png" c8Resource (by rfl) (by rfl)

/-- **C10**: a non-owner gets HTTP 403 from both the signed-download-URL
and delete endpoints, with no URL issued and the submission row
unchanged; the owner's delete only stamps `deleted_at`, leaving every
stored file-record field intact. -/
theorem C10_submission_ownership (sign : String → String) (db : Db)
    (now : Int) (uid : Nat) (sid : Nat) (sub : ResourceSubmission)
    (hsub : get_submission_by_id db sid = some sub) :
    (sub.user_id ≠ uid →
      get_submission_download_url sign db uid sid = (db, .error 403) ∧
      delete_submission db now uid sid = (db, .error 403)) ∧
    (sub.user_id = uid →
      delete_submission db now uid sid
        = ({ db with submissions := db.submissions.map (fun s =>
              if s.id = sid then { s with deleted_at := some now } else s) },
           .ok ()) ∧
      ∀ s ∈ (delete_submission db now uid sid).1.submissions,
        ∃ s0 ∈ db.submissions,
          s.user_id = s0.user_id ∧ s.resource_id = s0.resource_id ∧
          s.file_name = s0.file_name ∧ s.file_size_bytes = s0.file_size_bytes ∧
          s.file_type = s0.file_type ∧ s.gcs_bucket = s0.gcs_bucket ∧
          s.gcs_path = s0.gcs_path ∧ s.gcs_url = s0.gcs_url ∧
          s.submission_status = s0.submission_status ∧ s.grade = s0.grade) := by
  constructor
  · intro hne
    constructor
    · unfold get_submission_download_url
      rw [hsub]
      simp only []
      rw [if_pos hne]
    · unfold delete_submission
      rw [hsub]
      simp only []
      rw [if_pos hne]
  · intro heq
    have hdel : delete_submission db now uid sid
        = ({ db with submissions := db.submissions.map (fun s =>
              if s.id = sid then { s with deleted_at := some now } else s) },
           .ok ()) := by
      unfold delete_submission
      rw [hsub]
      simp only []
      rw [if_neg (fun hc => hc heq)]
      rfl
    refine ⟨hdel, ?_⟩
    rw [hdel]
    intro s hs
    obtain ⟨s0, hs0, hse⟩ := List.mem_map.mp hs
    by_cases hc : s0.id = sid
    · rw [if_pos hc] at hse
      rw [← hse]
      exact ⟨s0, hs0, rfl, rfl, rfl, rfl, rfl, rfl, rfl, rfl, rfl, rfl⟩
    · rw [if_neg hc] at hse
      rw [← hse]
      exact ⟨s0, hs0, rfl, rfl, rfl, rfl, rfl, rfl, rfl, rfl, rfl, rfl⟩

/-- Witness for C10 at a concrete one-submission database, owner user 1. -/
theorem C10_submission_ownership_witness :
    ((c10Sub.user_id ≠ 1 →
      get_submission_download_url (fun s => s) c10Db 1 42 = (c10Db, .error 403) ∧
      delete_submission c10Db 9 1 42 = (c10Db, .error 403)) ∧
    (c10Sub.user_id = 1 →
      delete_submission c10Db 9 1 42
        = ({ c10Db with submissions := c10Db.submissions.map (fun s =>
              if s.id = 42 then { s with deleted_at := some 9 } else s) },
           .ok ()) ∧
      ∀ s ∈ (delete_submission c10Db 9 1 42).1.submissions,
        ∃ s0 ∈ c10Db.submissions,
          s.user_id = s0.user_id ∧ s.resource_id = s0.resource_id ∧
          s.file_name = s0.file_name ∧ s.file_size_bytes = s0.file_size_bytes ∧
          s.file_type = s0.file_type ∧ s.gcs_bucket = s0.gcs_bucket ∧
          s.gcs_path = s0.gcs_path ∧ s.gcs_url = s0.gcs_url ∧
          s.submission_status = s0.submission_status ∧ s.grade = s0.grade)) :=
  C10_submission_ownership (fun s => s) c10Db 9 1 42 c10Sub (by rfl)

end Resources

namespace Email

/-- **C9**: with notifications enabled, SMTP credentials configured and a
log row created, `send_email` makes at most `EMAIL_RETRY_ATTEMPTS` (3)
delivery attempts; if the first success is attempt `k` (0-based) it
returns `True` with the log marked `'sent'` after sleeping
`EMAIL_RETRY_DELAY_SECONDS * 2 ^ j` seconds after each failed attempt
`j < k`; if all attempts fail it returns `False` with the log marked
`'failed'`. -/
theorem C9_email_retry (attemptOk : Nat → Bool) (user pass : String)
    (huser : user ≠ "") (hpass : pass ≠ "") :
    (send_email true user pass true attemptOk).attempts_made
        ≤ EMAIL_RETRY_ATTEMPTS ∧
    (∀ k, k < EMAIL_RETRY_ATTEMPTS → (∀ j, j < k → attemptOk j = false) →
      attemptOk k = true →
      send_email true user pass true attemptOk
        = { result := true, attempts_made := k + 1,
            waits := (List.range k).map
              (fun j => EMAIL_RETRY_DELAY_SECONDS * 2 ^ j),
            log_status := some "sent" }) ∧
    ((∀ j, j < EMAIL_RETRY_ATTEMPTS → attemptOk j = false) →
      send_email true user pass true attemptOk
        = { result := false, attempts_made := EMAIL_RETRY_ATTEMPTS,
            waits := (List.range (EMAIL_RETRY_ATTEMPTS - 1)).map
              (fun j => EMAIL_RETRY_DELAY_SECONDS * 2 ^ j),
            log_status := some "failed" }) := by
  have hcreds : ¬ (user = "" ∨ pass = "") := fun h => h.elim huser hpass
  have hsend : send_email true user pass true attemptOk
      = sendLoop attemptOk 3 60 (some "pending") 0 3 [] := by
    unfold send_email
    rw [if_neg (not_not_intro rfl), if_neg hcreds]
    rfl
  have case0 : attemptOk 0 = true →
      send_email true user pass true attemptOk
        = { result := true, attempts_made := 1, waits := [],
            log_status := some "sent" } := by
    intro h0
    rw [hsend]
    simp [sendLoop, h0]
  have case1 : attemptOk 0 = false → attemptOk 1 = true →
      send_email true user pass true attemptOk
        = { result := true, attempts_made := 2, waits := [60],
            log_status := some "sent" } := by
    intro h0 h1
    rw [hsend]
    simp [sendLoop, h0, h1]
  have case2 : attemptOk 0 = false → attemptOk 1 = false →
      attemptOk 2 = true →
      send_email true user pass true attemptOk
        = { result := true, attempts_made := 3, waits := [60, 120],
            log_status := some "sent" } := by
    intro h0 h1 h2
    rw [hsend]
    simp [sendLoop, h0, h1, h2]
  have case3 : attemptOk 0 = false → attemptOk 1 = false →
      attemptOk 2 = false →
      send_email true user pass true attemptOk
        = { result := false, attempts_made := 3, waits := [60, 120],
            log_status := some "failed" } := by
    intro h0 h1 h2
    rw [hsend]
    simp [sendLoop, h0, h1, h2]
  refine ⟨?_, ?_, ?_⟩
  · cases h0 : attemptOk 0 with
    | true =>
      rw [case0 h0]
      decide
    | false =>
      cases h1 : attemptOk 1 with
      | true =>
        rw [case1 h0 h1]
        decide
      | false =>
        cases h2 : attemptOk 2 with
        | true =>
          rw [case2 h0 h1 h2]
          decide
        | false =>
          rw [case3 h0 h1 h2]
          decide
  · intro k hk hprev hk2
    have hk3 : k < 3 := hk
    interval_cases k
    · rw [case0 hk2]
      decide
    · rw [case1 (hprev 0 (by norm_num)) hk2]
      decide
    · rw [case2 (hprev 0 (by norm_num)) (hprev 1 (by norm_num)) hk2]
      decide
  · intro hall
    rw [case3 (hall 0 (by decide)) (hall 1 (by decide)) (hall 2 (by decide))]
    decide

/-- Witness for C9 with a delivery oracle that fails the first attempt
and succeds on the second. -/
theorem C9_email_retry_witness :
    (send_email true "u" "pw" true (fun k => decide (k = 1))).attempts_made
        ≤ EMAIL_RETRY_ATTEMPTS ∧
    (∀ k, k < EMAIL_RETRY_ATTEMPTS →
      (∀ j, j < k → (fun k => decide (k = 1)) j = false) →
      (fun k => decide (k = 1)) k = true →
      send_email true "u" "pw" true (fun k => decide (k = 1))
        = { result := true, attempts_made := k + 1,
            waits := (List.range k).map
              (fun j => EMAIL_RETRY_DELAY_SECONDS * 2 ^ j),
            log_status := some "sent" }) ∧
    ((∀ j, j < EMAIL_RETRY_ATTEMPTS → (fun k => decide (k = 1)) j = false) →
      send_email true "u" "pw" true (fun k => decide (k = 1))
        = { result := false, attempts_made := EMAIL_RETRY_ATTEMPTS,
            waits := (List.range (EMAIL_RETRY_ATTEMPTS - 1)).map
              (fun j => EMAIL_RETRY_DELAY_SECONDS * 2 ^ j),
            log_status := some "failed" }) :=
  C9_email_retry (fun k => decide (k = 1)) "u" "pw" (by decide) (by decide)

end Email

end AIBC
